import Mathlib

/-!
# River output sink: event encoder and batching writer core

A shallow embedding of `Source/RiverOutput.h` and `Source/RiverOutput.cpp`.

* Heap objects held through smart pointers (`event_schema_`, `writer_`,
  `writing_thread_`, `editor`) are `Option` values; dereferencing an empty one
  is the fault `Fault.nullDereference`.
* Byte counts are natural numbers; the record count of a batch is the C++
  `int` field `numSamples`, an integer obtained through the explicit
  narrowing `toInt32`.
* The sink (`river::StreamWriter`), the schema (`river::StreamSchema`) and the
  host event objects are declared outside the sources; they are modelled at
  their interface.
-/

namespace RiverIO

/-! ## Machine integers and bytes -/

/-- One `char` of a buffer. -/
abbrev Byte := Fin 256

/-- Conversion to a signed 32 bit `int` (two's complement wrap-around). -/
def toInt32 (z : Int) : Int := (z + 2147483648) % 4294967296 - 2147483648

/-- Conversion to a signed 64 bit `int64_t` (two's complement wrap-around). -/
def toInt64 (z : Int) : Int :=
  (z + 9223372036854775808) % 18446744073709551616 - 9223372036854775808

/-- Run-time faults of the C++ code that the embedding makes explicit. -/
inductive Fault where
  | nullDereference
  | divisionByZero
  deriving DecidableEq, Repr

/-! ## Record schema -/

/-- Modelled from the spec: the primitive field types of
`river::FieldDefinition` (declared in `river/river.h`, outside the sources). -/
inductive FieldType where
  | INT32
  | INT64
  | FLOAT
  | DOUBLE
  deriving DecidableEq, Repr

/-- Modelled from the spec: `river::FieldDefinition`, built in the sources as
`FieldDefinition(name, type, size)`. -/
structure FieldDefinition where
  name : String
  type : FieldType
  size : Nat
  deriving DecidableEq, Repr

/-- Modelled from the spec: `river::StreamSchema`, an ordered sequence of
field definitions. -/
structure StreamSchema where
  field_definitions : List FieldDefinition
  deriving DecidableEq, Repr

/-- Modelled from the spec: `StreamSchema::sample_size()`, the sum of the
field widths, i.e. the byte length of one record. -/
def StreamSchema.sample_size (schema : StreamSchema) : Nat :=
  (schema.field_definitions.map FieldDefinition.size).sum

/-- The built-in schema `spike_schema_` set up by the constructor
`RiverOutput::RiverOutput`. -/
def spike_schema_ : StreamSchema :=
  { field_definitions :=
      [ { name := "channel_index", type := FieldType.INT32, size := 4 },
        { name := "unit_index", type := FieldType.INT32, size := 4 },
        { name := "sample_number", type := FieldType.INT64, size := 8 } ] }

/-! ## Batches, the sink and the writer thread object -/

/-- The struct `QueuedEvent` of `RiverOutput.h`. -/
structure QueuedEvent where
  rawData : List Byte
  numSamples : Int
  deriving DecidableEq, Repr

/-- Modelled from the spec: the sink adapter `river::StreamWriter`.
`declared` is the argument of the `Initialize` call (stream name, schema,
metadata), `appended` the `WriteBytes` calls the sink has observed, in order,
each as the buffer handed over and its record count. -/
structure StreamWriter where
  declared : Option (String × StreamSchema × List (String × String))
  appended : List QueuedEvent
  total_samples_written_ : Int
  stopped : Bool
  deriving DecidableEq, Repr

/-- A writer as left by a successful constructor call `StreamWriter(connection)`. -/
def StreamWriter.fresh : StreamWriter :=
  { declared := none, appended := [], total_samples_written_ := 0, stopped := false }

/-- Modelled from the spec: `StreamWriter::Initialize`, the `declare` operation. -/
def StreamWriter.Initialize (w : StreamWriter) (stream_name : String)
    (schema : StreamSchema) (metadata : List (String × String)) : StreamWriter :=
  { w with declared := some (stream_name, schema, metadata) }

/-- Modelled from the spec: `StreamWriter::WriteBytes`, the `append` operation. -/
def StreamWriter.WriteBytes (w : StreamWriter) (data : List Byte) (num_samples : Int) :
    StreamWriter :=
  { w with
    appended := w.appended ++ [{ rawData := data, numSamples := num_samples }]
    total_samples_written_ := w.total_samples_written_ + num_samples }

/-- Modelled from the spec: `StreamWriter::Stop`; stopping a stopped writer
has no effect. -/
def StreamWriter.Stop (w : StreamWriter) : StreamWriter :=
  { w with stopped := true }

/-- Modelled from the spec: `StreamWriter::total_samples_written`. -/
def StreamWriter.total_samples_written (w : StreamWriter) : Int :=
  w.total_samples_written_

/-- Control points of `RiverWriterThread::run`, one per atomic action of the
flush task. `write event` is the point after the lock has been released with
the local variable `event` holding the batch just removed from the queue. -/
inductive RunPoint where
  | loopHead
  | drain
  | write (event : QueuedEvent)
  | checkExit
  | sleep
  | exited
  deriving DecidableEq, Repr

/-- The object `RiverWriterThread`: the pending queue (front of the queue =
head of the list), the flush period, and the state of the thread that
executes `run` (its control point and the exit flag read by
`threadShouldExit`). The `writer_` pointer aliases the `writer_` of the owning
`RiverOutput`. -/
structure RiverWriterThread where
  queued_events_ : List QueuedEvent
  batch_period_ms_ : Int
  at_ : RunPoint
  shouldExit : Bool
  deriving DecidableEq, Repr

/-- The constructor `RiverWriterThread::RiverWriterThread`, followed by
`startThread()`: the thread is about to enter `run`. -/
def RiverWriterThread.new (batch_period_ms : Int) : RiverWriterThread :=
  { queued_events_ := [], batch_period_ms_ := batch_period_ms,
    at_ := RunPoint.loopHead, shouldExit := false }

/-- The method `RiverWriterThread::enqueue`. -/
def RiverWriterThread.enqueue (t : RiverWriterThread) (event : QueuedEvent) :
    RiverWriterThread :=
  if event.numSamples = 0 then t
  else { t with queued_events_ := t.queued_events_ ++ [event] }

/-- One atomic action of `RiverWriterThread::run` on the thread object and the
sink it points to; `none` once `run` has returned.

* `loopHead`: the test of `while (!threadShouldExit())`;
* `drain`: the block under `queue_mutex_` (test `empty()`, then `front()` and
  `pop()`, or `break`);
* `write event`: `writer_->WriteBytes(event.rawData.data(), event.numSamples)`;
* `checkExit`: the test `if (threadShouldExit())` after the drain;
* `sleep`: `sleep_until(start + batch_period_ms_)`. -/
def RiverWriterThread.runStep (t : RiverWriterThread) (w : StreamWriter) :
    Option (RiverWriterThread × StreamWriter) :=
  match t.at_ with
  | RunPoint.loopHead =>
    if t.shouldExit then some ({ t with at_ := RunPoint.exited }, w)
    else some ({ t with at_ := RunPoint.drain }, w)
  | RunPoint.drain =>
    match t.queued_events_ with
    | [] => some ({ t with at_ := RunPoint.checkExit }, w)
    | event :: rest =>
      some ({ t with queued_events_ := rest, at_ := RunPoint.write event }, w)
  | RunPoint.write event =>
    some ({ t with at_ := RunPoint.drain }, w.WriteBytes event.rawData event.numSamples)
  | RunPoint.checkExit =>
    if t.shouldExit then some ({ t with at_ := RunPoint.exited }, w)
    else some ({ t with at_ := RunPoint.sleep }, w)
  | RunPoint.sleep => some ({ t with at_ := RunPoint.loopHead }, w)
  | RunPoint.exited => none

/-- Let the flush task take up to `n` atomic actions, stopping early when
`run` has returned. -/
def RiverWriterThread.runSteps :
    Nat → RiverWriterThread → StreamWriter → RiverWriterThread × StreamWriter
  | 0, t, w => (t, w)
  | n + 1, t, w =>
    match t.runStep w with
    | none => (t, w)
    | some (t1, w1) => RiverWriterThread.runSteps n t1 w1

/-- The call `stopThread(timeout)` of the host thread class: raise the exit
flag and wait; `steps` is the number of atomic actions the flush task gets
to take before it has returned or the timeout makes the host end it. -/
def RiverWriterThread.stopThread (steps : Nat) (t : RiverWriterThread) (w : StreamWriter) :
    RiverWriterThread × StreamWriter :=
  RiverWriterThread.runSteps steps { t with shouldExit := true } w

/-! ## Host objects -/

/-- Modelled from the spec: the editor object behind `editor`; only whether
it is enabled is kept. -/
structure RiverOutputEditor where
  enabled : Bool
  deriving DecidableEq, Repr

/-- Modelled from the spec: an upstream TTL event of the host. It carries the
identifier of its upstream source and a list of metadata values, each a raw
byte payload. -/
structure TTLEvent where
  streamId : Nat
  sampleNumber : Int
  metadataValues : List (List Byte)
  deriving DecidableEq, Repr

/-- Modelled from the spec: `getStreamId()`. -/
def TTLEvent.getStreamId (event : TTLEvent) : Int := event.streamId

/-- Modelled from the spec: `getMetadataValueCount()`. -/
def TTLEvent.getMetadataValueCount (event : TTLEvent) : Nat :=
  event.metadataValues.length

/-- Modelled from the spec: `getChannelInfo()->getTotalEventMetadataSize()`,
the total byte size of the metadata payload of the event. -/
def TTLEvent.getTotalEventMetadataSize (event : TTLEvent) : Nat :=
  (event.metadataValues.map List.length).sum

/-- Modelled from the spec: `getMetadataValue(i)->getRawValuePointer()`, the
buffer of the `i`-th metadata value. -/
def TTLEvent.getMetadataValue (event : TTLEvent) (i : Nat) : Option (List Byte) :=
  event.metadataValues.get? i

/-! ## The processor state -/

/-- The data members of `RiverOutput` together with the parameters it reads
through `getParameter`, and the host-side facts `startAcquisition` consults. -/
structure RiverOutput where
  stream_name : String
  redis_connection_hostname : String
  redis_connection_password : String
  redis_connection_port : Int
  max_latency_ms : Int
  datastream_id : Int
  event_schema_ : Option StreamSchema
  writer_ : Option StreamWriter
  writing_thread_ : Option RiverWriterThread
  stream_id_to_stream_names : List (Int × String)
  editor : Option RiverOutputEditor
  isEnabled : Bool
  spikeChannels : Nat
  deriving DecidableEq, Repr

/-- The state right after the constructor `RiverOutput::RiverOutput`, with the
default parameter values registered there. -/
def RiverOutput.new : RiverOutput :=
  { stream_name := ""
    redis_connection_hostname := "127.0.0.1"
    redis_connection_password := ""
    redis_connection_port := 6379
    max_latency_ms := 5
    datastream_id := 0
    event_schema_ := none
    writer_ := none
    writing_thread_ := none
    stream_id_to_stream_names := []
    editor := none
    isEnabled := false
    spikeChannels := 0 }

/-- The expression `stream_id_to_stream_names[stream_id]`: `operator[]` of
`std::unordered_map` inserts an empty name when the key is missing. -/
def lookupOrInsert (m : List (Int × String)) (k : Int) : List (Int × String) :=
  if m.any (fun kv => kv.1 = k) then m else m ++ [(k, "")]

/-! ## The event encoder -/

/-- The method `RiverOutput::handleTTLEvent`. The dereference of
`event_schema_` and the remainder modulo `sample_size()` are guarded so that
the undefined cases of the source end in a `Fault`. -/
def handleTTLEvent (s : RiverOutput) (event : TTLEvent) : Except Fault RiverOutput :=
  let stream_id := s.datastream_id
  let s := { s with
    stream_id_to_stream_names := lookupOrInsert s.stream_id_to_stream_names stream_id }
  if event.getStreamId ≠ stream_id then .ok s
  else if event.getMetadataValueCount ≠ 1 then .ok s
  else
    let event_metadata_size := event.getTotalEventMetadataSize
    if event_metadata_size = 0 then .ok s
    else
      match s.event_schema_ with
      | none => .error Fault.nullDereference
      | some event_schema =>
        if event_schema.sample_size = 0 then .error Fault.divisionByZero
        else if event_metadata_size % event_schema.sample_size ≠ 0 then .ok s
        else
          let num_samples := toInt32 (Int.ofNat (event_metadata_size / event_schema.sample_size))
          match event.getMetadataValue 0 with
          | none => .error Fault.nullDereference
          | some ptr =>
            match s.writing_thread_ with
            | some writing_thread =>
              let queuedEvent : QueuedEvent :=
                { rawData := ptr.take event_metadata_size, numSamples := num_samples }
              .ok { s with writing_thread_ := some (writing_thread.enqueue queuedEvent) }
            | none =>
              match s.writer_ with
              | none => .error Fault.nullDereference
              | some writer =>
                .ok { s with writer_ := some (writer.WriteBytes ptr num_samples) }

/-- The pending queue of a state: the queue of the writer thread, when there
is one. -/
def RiverOutput.pending (s : RiverOutput) : Option (List QueuedEvent) :=
  s.writing_thread_.map RiverWriterThread.queued_events_

/-- The appends the sink of a state has observed. -/
def RiverOutput.sinkLog (s : RiverOutput) : Option (List QueuedEvent) :=
  s.writer_.map StreamWriter.appended

/-! ## The spike record -/

/-- Byte order of the host, which fixes the object representation that
`memcpy` and `reinterpret_cast<const char *>` expose. -/
inductive ByteOrder where
  | little
  | big
  deriving DecidableEq, Repr

/-- The `width` low-order base-256 digits of `n`, least significant first. -/
def natToBytes : Nat → Nat → List Byte
  | 0, _ => []
  | width + 1, n => ⟨n % 256, Nat.mod_lt n (by decide)⟩ :: natToBytes width (n / 256)

/-- The number whose base-256 digits, least significant first, are `bytes`. -/
def bytesToNat : List Byte → Nat
  | [] => 0
  | b :: rest => b.val + 256 * bytesToNat rest

/-- Object representation of a two's complement integer of `width` bytes. -/
def encodeInt (bo : ByteOrder) (width : Nat) (z : Int) : List Byte :=
  let digits := natToBytes width (z % (256 ^ width : Nat)).toNat
  match bo with
  | ByteOrder.little => digits
  | ByteOrder.big => digits.reverse

/-- Value of a two's complement integer read from its object representation. -/
def decodeInt (bo : ByteOrder) (bytes : List Byte) : Int :=
  let digits := match bo with
    | ByteOrder.little => bytes
    | ByteOrder.big => bytes.reverse
  let n := bytesToNat digits
  if 2 * n < 256 ^ bytes.length then (n : Int) else (n : Int) - (256 ^ bytes.length : Nat)

/-- The packed struct `RiverSpike` of `RiverOutput.h`. -/
structure RiverSpike where
  channel_index : Int
  unit_index : Int
  sample_number : Int
  deriving DecidableEq, Repr

/-- The `sizeof(RiverSpike)` bytes of a packed `RiverSpike`: the members in
declaration order, without padding. -/
def RiverSpike.bytes (bo : ByteOrder) (r : RiverSpike) : List Byte :=
  encodeInt bo 4 r.channel_index ++ encodeInt bo 4 r.unit_index ++
    encodeInt bo 8 r.sample_number

/-- Modelled from the spec: a spike event of the host, with the values of
`getChannelIndex()` (an `int`), `getSortedId()` (an unsigned 16 bit id) and
`getSampleNumber()` (a signed 64 bit sample index). -/
structure Spike where
  channelIndex : Int
  sortedId : Nat
  sampleNumber : Int
  channelIndex_range : -2147483648 ≤ channelIndex ∧ channelIndex < 2147483648
  sortedId_range : sortedId < 65536
  sampleNumber_range :
    -9223372036854775808 ≤ sampleNumber ∧ sampleNumber < 9223372036854775808

/-- The local `river_spike` that `RiverOutput::handleSpike` fills in. -/
def toRiverSpike (spike : Spike) : RiverSpike :=
  let channel_index := toInt32 spike.channelIndex
  { channel_index := toInt32 channel_index
    sample_number := toInt64 spike.sampleNumber
    unit_index := toInt32 spike.sortedId }

/-- The method `RiverOutput::handleSpike`; `writer_->WriteBytes` on an empty
`writer_` is a `Fault`. -/
def handleSpike (bo : ByteOrder) (s : RiverOutput) (spike : Spike) :
    Except Fault RiverOutput :=
  let river_spike := toRiverSpike spike
  match s.writing_thread_ with
  | some writing_thread =>
    let event : QueuedEvent := { rawData := river_spike.bytes bo, numSamples := 1 }
    .ok { s with writing_thread_ := some (writing_thread.enqueue event) }
  | none =>
    match s.writer_ with
    | none => .error Fault.nullDereference
    | some writer =>
      .ok { s with writer_ := some (writer.WriteBytes (river_spike.bytes bo) 1) }

/-- An event delivered to one of the two per-event callbacks. -/
inductive HostEvent where
  | spike (spike : Spike)
  | ttl (event : TTLEvent)

/-- Deliver one event to its callback. -/
def handleEvent (bo : ByteOrder) (s : RiverOutput) : HostEvent → Except Fault RiverOutput
  | HostEvent.spike spike => handleSpike bo s spike
  | HostEvent.ttl event => handleTTLEvent s event

/-- Deliver a sequence of events, one callback after the other; a fault ends
the run. -/
def handleEvents (bo : ByteOrder) : RiverOutput → List HostEvent → Except Fault RiverOutput
  | s, [] => .ok s
  | s, e :: rest =>
    match handleEvent bo s e with
    | .error f => .error f
    | .ok s1 => handleEvents bo s1 rest

/-- Let the flush task of a state take up to `n` atomic actions on the queue
and the sink. -/
def RiverOutput.flush (n : Nat) (s : RiverOutput) : RiverOutput :=
  match s.writing_thread_, s.writer_ with
  | some t, some w =>
    let r := RiverWriterThread.runSteps n t w
    { s with writing_thread_ := some r.1, writer_ := some r.2 }
  | _, _ => s

/-- The quotient `m / sample_size` of a TTL event is non-zero and the
narrowing to the `int` record count turns it into 0. -/
def countWrapsToZero (schema : StreamSchema) (event : TTLEvent) : Bool :=
  decide (event.getTotalEventMetadataSize / schema.sample_size ≠ 0 ∧
    toInt32 (Int.ofNat (event.getTotalEventMetadataSize / schema.sample_size)) = 0)

/-- Two runs end alike: both return normally, in states related by `R`, or
both end in the same fault. -/
def ResultsAgree (R : RiverOutput → RiverOutput → Prop) :
    Except Fault RiverOutput → Except Fault RiverOutput → Prop
  | Except.ok s, Except.ok a => R s a
  | Except.error f, Except.error g => f = g
  | _, _ => False

/-- A synchronous state `s` and an asynchronous state `a` that have handled
the same events: same event schema `schema` and upstream source, and the
appends the sink of `s` has observed are those the sink of `a` has observed
followed by the pending queue of `a`, whose flush task has not yet entered
its loop. -/
def SyncAsync (schema : Option StreamSchema) (s a : RiverOutput) : Prop :=
  ∃ w wa t, s.writer_ = some w ∧ s.writing_thread_ = none ∧
    a.writer_ = some wa ∧ a.writing_thread_ = some t ∧
    w.appended = wa.appended ++ t.queued_events_ ∧
    t.at_ = RunPoint.loopHead ∧ t.shouldExit = false ∧
    s.event_schema_ = schema ∧ a.event_schema_ = schema ∧
    s.datastream_id = a.datastream_id

/-! ## Session start and stop -/

/-- The method `RiverOutput::shouldConsumeSpikes`. -/
def shouldConsumeSpikes (s : RiverOutput) : Bool :=
  s.event_schema_.isNone

/-- The method `RiverOutput::getSchema`. -/
def getSchema (s : RiverOutput) : StreamSchema :=
  match s.event_schema_ with
  | some event_schema => event_schema
  | none => spike_schema_

/-- What lies outside the processor and decides how one call of
`startAcquisition` or `stopAcquisition` goes: whether the constructor of the
sink writer throws, whether its `Initialize` throws, how many atomic actions a
flush task that is told to stop still takes, and the values of the first
spike channel and the global sample rate that go into the stream metadata. -/
structure Host where
  constructorThrows : Bool
  initializeThrows : Bool
  stopSteps : Nat
  prePeakSamples : Nat
  postPeakSamples : Nat
  globalSampleRate : String
  deriving DecidableEq, Repr

/-- How a call of `startAcquisition` ends: it returns a `bool`, or an
exception of `Initialize`, which is not caught, leaves the method. -/
inductive StartResult where
  | returned (value : Bool) (s : RiverOutput)
  | threw (s : RiverOutput)
  deriving DecidableEq, Repr

/-- The state a call of `startAcquisition` leaves behind. -/
def StartResult.state : StartResult → RiverOutput
  | StartResult.returned _ s => s
  | StartResult.threw s => s

/-- The method `RiverOutput::startAcquisition`. Status messages, log lines and
the calls into `CoreServices` leave no trace in the state; `jassertfalse` is
an assertion of debug builds only. -/
def startAcquisition (host : Host) (s : RiverOutput) : StartResult :=
  let sn := s.stream_name
  if sn.isEmpty || s.redis_connection_hostname.isEmpty || s.redis_connection_port ≤ 0 then
    StartResult.returned false s
  else
    let s :=
      match s.writing_thread_ with
      | some writing_thread =>
        { s with
          writer_ := s.writer_.map
            (fun w => (writing_thread.stopThread host.stopSteps w).2)
          writing_thread_ := none }
      | none => s
    let s :=
      match s.writer_ with
      | some _ => { s with writer_ := none }
      | none => s
    if host.constructorThrows then
      StartResult.returned false { s with isEnabled := false }
    else
      let s := { s with writer_ := some StreamWriter.fresh }
      if shouldConsumeSpikes s && s.spikeChannels == 0 then
        StartResult.returned false s
      else
        let metadata : List (String × String) :=
          if shouldConsumeSpikes s then
            [ ("prepeak_samples", toString host.prePeakSamples),
              ("postpeak_samples", toString host.postPeakSamples),
              ("sampling_rate", host.globalSampleRate) ]
          else []
        if host.initializeThrows then StartResult.threw s
        else
          let s := { s with
            writer_ := s.writer_.map
              (fun (w : StreamWriter) => w.Initialize sn (getSchema s) metadata) }
          let s := { s with
            editor := s.editor.map (fun _ => { enabled := true }) }
          if s.max_latency_ms > 0 then
            StartResult.returned true
              { s with writing_thread_ := some (RiverWriterThread.new s.max_latency_ms) }
          else
            StartResult.returned true s

/-- The method `RiverOutput::stopAcquisition`. -/
def stopAcquisition (host : Host) (s : RiverOutput) : Bool × RiverOutput :=
  let s :=
    match s.writing_thread_ with
    | some writing_thread =>
      { s with
        writer_ := s.writer_.map
          (fun w => (writing_thread.stopThread host.stopSteps w).2)
        writing_thread_ := none }
    | none => s
  let s := { s with writer_ := s.writer_.map StreamWriter.Stop }
  let s := { s with editor := s.editor.map (fun _ => { enabled := false }) }
  (true, s)

/-! ## Session states -/

/-- A writer session is open: `writer_` holds a writer that has not been
stopped. -/
def RiverOutput.sessionOpen (s : RiverOutput) : Bool :=
  match s.writer_ with
  | some w => !w.stopped
  | none => false

/-- State `Idle`: no open writer session and no flush task. -/
def RiverOutput.isIdle (s : RiverOutput) : Bool :=
  !s.sessionOpen && s.writing_thread_.isNone

/-- State `Active-Synchronous`: an open writer session and no flush task. -/
def RiverOutput.isSynchronous (s : RiverOutput) : Bool :=
  s.sessionOpen && s.writing_thread_.isNone

/-- State `Active-Asynchronous`: an open writer session and a flush task. -/
def RiverOutput.isAsynchronous (s : RiverOutput) : Bool :=
  s.sessionOpen && s.writing_thread_.isSome

/-- Exactly one of the three session states holds. -/
def RiverOutput.exactlyOneMode (s : RiverOutput) : Prop :=
  (s.isIdle = true ∧ s.isSynchronous = false ∧ s.isAsynchronous = false) ∨
  (s.isIdle = false ∧ s.isSynchronous = true ∧ s.isAsynchronous = false) ∨
  (s.isIdle = false ∧ s.isSynchronous = false ∧ s.isAsynchronous = true)

/-! ## The asynchronous writer as a transition system -/

/-- The steps of the asynchronous writer: the producer calls `enqueue`, the
flush task takes its next atomic action, or the exit flag is raised. -/
inductive Action where
  | enqueue (event : QueuedEvent)
  | flushTask
  | signalExit
  deriving DecidableEq, Repr

/-- The thread object and the sink it writes to, with two history lists that
no step reads: the arguments of all `enqueue` calls and the batches removed
from the queue so far. -/
structure WriterSystem where
  thread : RiverWriterThread
  writer : StreamWriter
  enqueueCalls : List QueuedEvent
  removed : List QueuedEvent
  deriving DecidableEq, Repr

/-- The system right after `startAcquisition` has created and started the
flush task on the writer `w`. -/
def WriterSystem.init (w : StreamWriter) (batch_period_ms : Int) : WriterSystem :=
  { thread := RiverWriterThread.new batch_period_ms, writer := w,
    enqueueCalls := [], removed := [] }

/-- One step of the asynchronous writer; `none` when the step is not enabled
(the flush task has returned from `run`). -/
def WriterSystem.step (sys : WriterSystem) : Action → Option WriterSystem
  | Action.enqueue event =>
    some { sys with
      thread := sys.thread.enqueue event
      enqueueCalls := sys.enqueueCalls ++ [event] }
  | Action.flushTask =>
    match sys.thread.runStep sys.writer with
    | none => none
    | some (t, w) =>
      some { sys with
        thread := t
        writer := w
        removed :=
          if sys.thread.at_ = RunPoint.drain then
            sys.removed ++ sys.thread.queued_events_.head?.toList
          else sys.removed }
  | Action.signalExit =>
    some { sys with thread := { sys.thread with shouldExit := true } }

/-- Run an interleaving, given as the list of its steps. -/
def WriterSystem.exec : WriterSystem → List Action → Option WriterSystem
  | sys, [] => some sys
  | sys, a :: rest =>
    match sys.step a with
    | none => none
    | some sys1 => WriterSystem.exec sys1 rest

/-- The batches that `enqueue` was called with and that have a non-zero
record count. -/
def WriterSystem.accepted (sys : WriterSystem) : List QueuedEvent :=
  sys.enqueueCalls.filter (fun event => event.numSamples ≠ 0)

/-- The batch that has been removed from the queue and not yet handed to the
sink, if any. -/
def WriterSystem.inFlight (sys : WriterSystem) : List QueuedEvent :=
  match sys.thread.at_ with
  | RunPoint.write event => [event]
  | _ => []

/-- The flush task is at a point where it reads the cancellation signal, or
it has returned from `run`. -/
def WriterSystem.atCheckOrExit (sys : WriterSystem) : Bool :=
  match sys.thread.at_ with
  | RunPoint.loopHead => true
  | RunPoint.checkExit => true
  | RunPoint.exited => true
  | _ => false

/-- The bookkeeping of the asynchronous writer is consistent: the accepted
batches are the removed ones followed by the queue; the appends `base` that
the sink had seen before the flush task was started, followed by the removed
batches, are the appends the sink has seen followed by the batch in flight;
and no queued batch has record count 0. -/
def WriterSystem.Consistent (base : List QueuedEvent) (sys : WriterSystem) : Prop :=
  sys.accepted = sys.removed ++ sys.thread.queued_events_ ∧
  base ++ sys.removed = sys.writer.appended ++ sys.inFlight ∧
  ∀ event ∈ sys.thread.queued_events_, event.numSamples ≠ 0

/-- The arguments of the `enqueue` steps of an interleaving, in order. -/
def enqueuedIn (acts : List Action) : List QueuedEvent :=
  acts.filterMap (fun a =>
    match a with
    | Action.enqueue event => some event
    | _ => none)

/-- The producer calls `enqueue` once for each batch of a list, in order. -/
def enqueueAll (events : List QueuedEvent) : List Action :=
  events.map Action.enqueue

/-- The flush task takes `n` atomic actions in a row. -/
def flushSteps (n : Nat) : List Action :=
  List.replicate n Action.flushTask

/-! ## Schema selection, persistence and the per-block entry point -/

/-- The method `RiverOutput::totalSamplesWritten`. -/
def totalSamplesWritten (s : RiverOutput) : Int :=
  match s.writer_ with
  | some writer => writer.total_samples_written
  | none => 0

/-- Modelled from the spec: the methods `refreshSchemaFromProcessor`,
`refreshLabelsFromProcessor` and `updateProcessorSchema` of the editor, whose
bodies lie outside the sources. The processor calls them through
`editor.get()` without a test, so an empty `editor` is a `Fault`; they redraw
the configuration panel from the processor and leave the data members of the
processor as they are. -/
def callEditor (s : RiverOutput) : Except Fault RiverOutput :=
  match s.editor with
  | none => .error Fault.nullDereference
  | some _ => .ok s

/-- The method `RiverOutput::setEventSchema`. -/
def setEventSchema (s : RiverOutput) (eventSchema : StreamSchema) :
    Except Fault RiverOutput :=
  callEditor { s with event_schema_ := some eventSchema }

/-- The method `RiverOutput::clearEventSchema`. -/
def clearEventSchema (s : RiverOutput) : Except Fault RiverOutput :=
  callEditor { s with event_schema_ := none }

/-- One child element of the XML element handed to
`loadCustomParametersFromXml`: its tag name and its attributes. -/
structure XmlElement where
  tagName : String
  attributes : List (String × String)
  deriving DecidableEq, Repr

/-- The call `hasAttribute(name)`. -/
def XmlElement.hasAttribute (node : XmlElement) (name : String) : Bool :=
  node.attributes.any (fun kv => kv.1 == name)

/-- The call `getStringAttribute(name, default)`. -/
def XmlElement.getStringAttribute (node : XmlElement) (name : String)
    (defaultValue : String) : String :=
  match node.attributes.find? (fun kv => kv.1 == name) with
  | some kv => kv.2
  | none => defaultValue

/-- The two conversions from text that `loadCustomParametersFromXml` relies on
and that are defined outside the sources: `river::StreamSchema::FromJson`
(`none` stands for a thrown `std::exception`) and the reading of an integer
attribute. -/
structure TextParsers where
  fromJson : String → Option StreamSchema
  getIntValue : String → Int

/-- The call `getIntAttribute(name, default)`. -/
def XmlElement.getIntAttribute (parsers : TextParsers) (node : XmlElement) (name : String)
    (defaultValue : Int) : Int :=
  match node.attributes.find? (fun kv => kv.1 == name) with
  | some kv => parsers.getIntValue kv.2
  | none => defaultValue

/-- The body of the loop of `RiverOutput::loadCustomParametersFromXml` for a
child element with tag `RiverOutput`. A parameter setter makes its argument
the value that the getter returns; `setDatastreamId` takes a `uint16`. -/
def loadMainNode (parsers : TextParsers) (s : RiverOutput) (mainNode : XmlElement) :
    Except Fault RiverOutput :=
  let s := { s with
    redis_connection_hostname := mainNode.getStringAttribute "hostname" "127.0.0.1" }
  let s := { s with
    redis_connection_port := mainNode.getIntAttribute parsers "port" 6379 }
  let s := { s with
    redis_connection_password := mainNode.getStringAttribute "password" "" }
  let s :=
    if mainNode.hasAttribute "max_latency_ms" then
      { s with max_latency_ms := mainNode.getIntAttribute parsers "max_latency_ms" 0 }
    else s
  let s :=
    if mainNode.hasAttribute "stream_name" then
      { s with stream_name := mainNode.getStringAttribute "stream_name" "" }
    else s
  let s :=
    if mainNode.hasAttribute "datastream_id" then
      { s with
        datastream_id := mainNode.getIntAttribute parsers "datastream_id" 0 % 65536 }
    else s
  if mainNode.hasAttribute "event_schema_json" then
    let j := mainNode.getStringAttribute "event_schema_json" ""
    match parsers.fromJson j with
    | some schema => setEventSchema s schema
    | none => clearEventSchema s
  else
    clearEventSchema s

/-- The loop `forEachXmlChildElement(*xml, mainNode)` of
`RiverOutput::loadCustomParametersFromXml`. -/
def loadChildElements (parsers : TextParsers) :
    RiverOutput → List XmlElement → Except Fault RiverOutput
  | s, [] => .ok s
  | s, mainNode :: rest =>
    if mainNode.tagName ≠ "RiverOutput" then loadChildElements parsers s rest
    else
      match loadMainNode parsers s mainNode with
      | .error f => .error f
      | .ok s1 => loadChildElements parsers s1 rest

/-- The method `RiverOutput::loadCustomParametersFromXml`; `children` are the
child elements of `*xml`, in document order. -/
def loadCustomParametersFromXml (parsers : TextParsers) (s : RiverOutput)
    (children : List XmlElement) : Except Fault RiverOutput :=
  match loadChildElements parsers s children with
  | .error f => .error f
  | .ok s1 =>
    match callEditor s1 with
    | .error f => .error f
    | .ok s2 =>
      match callEditor s2 with
      | .error f => .error f
      | .ok s3 => callEditor s3

/-- Modelled from the spec: the host method `checkForEvents(checkForSpikes)`,
which goes through the events of the current block in order and hands every
TTL event to `handleTTLEvent` and, when `checkForSpikes` is set, every spike
to `handleSpike`. -/
def checkForEvents (bo : ByteOrder) (checkForSpikes : Bool) :
    RiverOutput → List HostEvent → Except Fault RiverOutput
  | s, [] => .ok s
  | s, HostEvent.ttl event :: rest =>
    match handleTTLEvent s event with
    | .error f => .error f
    | .ok s1 => checkForEvents bo checkForSpikes s1 rest
  | s, HostEvent.spike spike :: rest =>
    if checkForSpikes then
      match handleSpike bo s spike with
      | .error f => .error f
      | .ok s1 => checkForEvents bo checkForSpikes s1 rest
    else checkForEvents bo checkForSpikes s rest

/-- The method `RiverOutput::process`; `events` are the events of the block. -/
def process (bo : ByteOrder) (s : RiverOutput) (events : List HostEvent) :
    Except Fault RiverOutput :=
  match s.writer_ with
  | some _ => checkForEvents bo (shouldConsumeSpikes s) s events
  | none => .ok s

/-- The last child element with tag `RiverOutput`, if there is one: the
element whose attributes the loop of `loadCustomParametersFromXml` applies
last. -/
def lastMainNode : List XmlElement → Option XmlElement
  | [] => none
  | node :: rest =>
    match lastMainNode rest with
    | some later => some later
    | none => if node.tagName = "RiverOutput" then some node else none

/-- The event schema that a `RiverOutput` element stands for: the parsed
`event_schema_json` attribute, or none when the attribute is missing or does
not parse. -/
def persistedSchema (parsers : TextParsers) (mainNode : XmlElement) : Option StreamSchema :=
  if mainNode.hasAttribute "event_schema_json" then
    parsers.fromJson (mainNode.getStringAttribute "event_schema_json" "")
  else none

/-! ## Concrete inputs -/

/-- An event schema of three `INT32` fields: `sample_size = 12`. -/
def schema12 : StreamSchema :=
  { field_definitions :=
      [ { name := "a", type := FieldType.INT32, size := 4 },
        { name := "b", type := FieldType.INT32, size := 4 },
        { name := "c", type := FieldType.INT32, size := 4 } ] }

/-- An asynchronous session on `schema12` listening to upstream source 0, with
one batch pending. -/
def asyncState12 : RiverOutput :=
  { RiverOutput.new with
    stream_name := "events"
    max_latency_ms := 7
    event_schema_ := some schema12
    writer_ := some (StreamWriter.fresh.Initialize "events" schema12 [])
    writing_thread_ := some
      { RiverWriterThread.new 7 with
        queued_events_ := [{ rawData := List.replicate 12 1, numSamples := 1 }] } }

/-- A synchronous session on `schema12` listening to upstream source 0. -/
def syncState12 : RiverOutput :=
  { RiverOutput.new with
    stream_name := "events"
    max_latency_ms := 0
    event_schema_ := some schema12
    writer_ := some (StreamWriter.fresh.Initialize "events" schema12 []) }

/-- A TTL event of upstream source 0 with one metadata value of `n` bytes. -/
def ttlOfSize (n : Nat) : TTLEvent :=
  { streamId := 0, sampleNumber := 100, metadataValues := [List.replicate n 5] }

/-- An event schema of one `INT32` field: `sample_size = 4`. -/
def schema4 : StreamSchema :=
  { field_definitions := [{ name := "a", type := FieldType.INT32, size := 4 }] }

/-- An asynchronous session on `schema4` listening to upstream source 0, with
an empty queue. -/
def asyncState4 : RiverOutput :=
  { RiverOutput.new with
    stream_name := "events"
    max_latency_ms := 7
    event_schema_ := some schema4
    writer_ := some (StreamWriter.fresh.Initialize "events" schema4 [])
    writing_thread_ := some (RiverWriterThread.new 7) }

/-- A synchronous session on `schema4` listening to upstream source 0. -/
def syncState4 : RiverOutput :=
  { RiverOutput.new with
    stream_name := "events"
    max_latency_ms := 0
    event_schema_ := some schema4
    writer_ := some (StreamWriter.fresh.Initialize "events" schema4 []) }

/-- A writer on which a stream of `schema12` records has been declared. -/
def writer12 : StreamWriter :=
  StreamWriter.fresh.Initialize "events" schema12 []

/-- Two batches of one `schema12` record each. -/
def batchA : QueuedEvent := { rawData := List.replicate 12 1, numSamples := 1 }

/-- The second batch. -/
def batchB : QueuedEvent := { rawData := List.replicate 12 2, numSamples := 1 }

/-- A batch with record count 0. -/
def batchZero : QueuedEvent := { rawData := [], numSamples := 0 }

/-- A spike on channel 3, unit 2, at sample 1000. -/
def spike0 : Spike :=
  { channelIndex := 3, sortedId := 2, sampleNumber := 1000,
    channelIndex_range := by decide, sortedId_range := by decide,
    sampleNumber_range := by decide }

/-- An interleaving that ends with the flush task at the cancellation check
after the drain and a batch waiting in the queue. -/
def interleavingAtCheck : List Action :=
  [Action.enqueue batchA, Action.flushTask, Action.flushTask, Action.flushTask,
    Action.flushTask, Action.enqueue batchB]

/-- The state that `interleavingAtCheck` leads to. -/
def systemAtCheck : WriterSystem :=
  { thread :=
      { queued_events_ := [batchB], batch_period_ms_ := 7, at_ := RunPoint.checkExit,
        shouldExit := false }
    writer := writer12.WriteBytes batchA.rawData batchA.numSamples
    enqueueCalls := [batchA, batchB]
    removed := [batchA] }

/-- The state after `enqueue` has been called with `batchA`, `batchZero` and
`batchB` on a new flush task. -/
def systemAfterEnqueues : WriterSystem :=
  { thread :=
      { queued_events_ := [batchA, batchB], batch_period_ms_ := 7,
        at_ := RunPoint.loopHead, shouldExit := false }
    writer := writer12
    enqueueCalls := [batchA, batchZero, batchB]
    removed := [] }

/-- The outside world of a start that goes well: the sink connects and the
stream can be declared; a flush task told to stop gets 100 atomic actions. -/
def hostOk : Host :=
  { constructorThrows := false, initializeThrows := false, stopSteps := 100,
    prePeakSamples := 8, postPeakSamples := 32, globalSampleRate := "30000.000000" }

/-- A configured processor in spike-consuming mode with one spike channel and
`max_latency_ms = 7`, before its first session. -/
def configured7 : RiverOutput :=
  { RiverOutput.new with stream_name := "spikes", max_latency_ms := 7, spikeChannels := 1 }

/-- The same processor with `max_latency_ms = 0`. -/
def configured0 : RiverOutput :=
  { RiverOutput.new with stream_name := "spikes", max_latency_ms := 0, spikeChannels := 1 }

/-- A configured processor in spike-consuming mode without any spike
channel, before its first session. -/
def configuredNoSpikeChannels : RiverOutput :=
  { RiverOutput.new with stream_name := "spikes", spikeChannels := 0 }

/-- The metadata that `startAcquisition` declares under `hostOk` in
spike-consuming mode. -/
def spikeMetadata : List (String × String) :=
  [ ("prepeak_samples", "8"), ("postpeak_samples", "32"),
    ("sampling_rate", "30000.000000") ]

/-- A TTL event of upstream source 0 whose one metadata value has
`17179869184` bytes: on `schema4` that is `4294967296` records. -/
def ttlHuge : TTLEvent := ttlOfSize 17179869184

/-- A sequence of events for a session on `schema12`: a spike, an event of
two records, an event whose size is rejected, an event of one record. -/
def events12 : List HostEvent :=
  [HostEvent.spike spike0, HostEvent.ttl (ttlOfSize 24), HostEvent.ttl (ttlOfSize 30),
    HostEvent.ttl (ttlOfSize 12)]

/-- A stand-in for the two text conversions: the one JSON text
`schema12json` parses to `schema12`, every other text is rejected; integers
are read in decimal. -/
def parsers12 : TextParsers :=
  { fromJson := fun j => if j = "schema12json" then some schema12 else none
    getIntValue := fun t => t.toInt?.getD 0 }

/-- A persisted `RiverOutput` element whose serialized event schema is the
text `\x7bmalformed\x7d`. -/
def nodeMalformed : XmlElement :=
  { tagName := "RiverOutput"
    attributes := [("stream_name", "events"), ("event_schema_json", "\x7bmalformed\x7d")] }

/-- A persisted `RiverOutput` element without serialized event schema. -/
def nodeWithoutSchema : XmlElement :=
  { tagName := "RiverOutput", attributes := [("stream_name", "spikes")] }

/-- A persisted `RiverOutput` element whose serialized event schema parses. -/
def nodeSchema12 : XmlElement :=
  { tagName := "RiverOutput"
    attributes := [("stream_name", "events"), ("event_schema_json", "schema12json")] }

/-- A processor with its editor created and the event schema `schema4` set,
before its first session. -/
def editedState4 : RiverOutput :=
  { RiverOutput.new with
    stream_name := "events"
    event_schema_ := some schema4
    editor := some { enabled := false } }

/-- A configured processor in event mode on `schema12`, with its editor
created and `max_latency_ms = 0`, before its first session. -/
def configuredEvents12 : RiverOutput :=
  { RiverOutput.new with
    stream_name := "events"
    max_latency_ms := 0
    event_schema_ := some schema12
    editor := some { enabled := false } }

/-- The synchronous session that `startAcquisition` opens on
`configuredEvents12`: the stream is declared with the schema `schema12`. -/
def session12 : RiverOutput :=
  { configuredEvents12 with
    writer_ := some (StreamWriter.fresh.Initialize "events" schema12 [])
    editor := some { enabled := true } }

/-- An interleaving in which the exit flag is raised before the flush task
takes its first action: one batch is enqueued, the flag is raised, the flush
task evaluates the condition of its outer loop. -/
def interleavingCancelFirst : List Action :=
  [Action.enqueue batchA, Action.signalExit, Action.flushTask]

/-- An interleaving in which the flush task drains, finds the flag down,
sleeps, and finds the flag up at the head of the next iteration; a batch is
enqueued while it sleeps. -/
def interleavingCancelAsleep : List Action :=
  [Action.flushTask, Action.flushTask, Action.flushTask, Action.enqueue batchA,
    Action.signalExit, Action.flushTask, Action.flushTask]

/-- An interleaving that ends with the drain about to observe the empty
queue: one batch is enqueued, the flush task passes the loop head, removes
the batch and appends it. -/
def interleavingDrained : List Action :=
  [Action.enqueue batchA, Action.flushTask, Action.flushTask, Action.flushTask]

/-- The state that `interleavingDrained` leads to. -/
def systemDrained : WriterSystem :=
  { thread :=
      { queued_events_ := [], batch_period_ms_ := 7, at_ := RunPoint.drain,
        shouldExit := false }
    writer := writer12.WriteBytes batchA.rawData batchA.numSamples
    enqueueCalls := [batchA]
    removed := [batchA] }

/-- The synchronous session in spike-consuming mode that `startAcquisition`
opens on `configured0`. -/
def spikeSession0 : RiverOutput :=
  { configured0 with
    writer_ := some (StreamWriter.fresh.Initialize "spikes" spike_schema_ spikeMetadata) }

/-- An event schema without fields: `sample_size = 0`. -/
def schemaEmpty : StreamSchema := { field_definitions := [] }

/-- A synchronous session whose event schema is `schemaEmpty`. -/
def sessionEmptySchema : RiverOutput :=
  { RiverOutput.new with
    stream_name := "events"
    max_latency_ms := 0
    event_schema_ := some schemaEmpty
    writer_ := some (StreamWriter.fresh.Initialize "events" schemaEmpty []) }

end RiverIO

/-! # Theorems -/

namespace RiverIO

/-! ## Auxiliary facts -/

theorem toInt32_of_range (z : Int) (h1 : -2147483648 ≤ z) (h2 : z < 2147483648) :
    toInt32 z = z := by
  unfold toInt32
  rw [Int.emod_eq_of_lt (by omega) (by omega)]
  omega

theorem toInt64_of_range (z : Int) (h1 : -9223372036854775808 ≤ z)
    (h2 : z < 9223372036854775808) : toInt64 z = z := by
  unfold toInt64
  rw [Int.emod_eq_of_lt (by omega) (by omega)]
  omega

theorem getTotalEventMetadataSize_single (event : TTLEvent) (payload : List Byte)
    (hval : event.metadataValues = [payload]) :
    event.getTotalEventMetadataSize = payload.length := by
  simp [TTLEvent.getTotalEventMetadataSize, hval]

/-- What `handleTTLEvent` does with an event that passes its four checks. -/
theorem handleTTLEvent_accepted (s : RiverOutput) (event : TTLEvent)
    (event_schema : StreamSchema) (payload : List Byte)
    (hschema : s.event_schema_ = some event_schema)
    (hid : event.getStreamId = s.datastream_id)
    (hval : event.metadataValues = [payload])
    (hpos : payload.length ≠ 0)
    (hdiv : payload.length % event_schema.sample_size = 0) :
    handleTTLEvent s event =
      match s.writing_thread_ with
      | some t =>
        Except.ok { s with
          stream_id_to_stream_names :=
            lookupOrInsert s.stream_id_to_stream_names s.datastream_id
          writing_thread_ := some (t.enqueue
            { rawData := payload
              numSamples :=
                toInt32 (Int.ofNat (payload.length / event_schema.sample_size)) }) }
      | none =>
        match s.writer_ with
        | none => Except.error Fault.nullDereference
        | some w =>
          Except.ok { s with
            stream_id_to_stream_names :=
              lookupOrInsert s.stream_id_to_stream_names s.datastream_id
            writer_ := some (w.WriteBytes payload
              (toInt32 (Int.ofNat (payload.length / event_schema.sample_size)))) } := by
  have hss : event_schema.sample_size ≠ 0 := by
    intro h0
    rw [h0, Nat.mod_zero] at hdiv
    exact hpos hdiv
  have hsize := getTotalEventMetadataSize_single event payload hval
  have hcount : event.getMetadataValueCount = 1 := by
    simp [TTLEvent.getMetadataValueCount, hval]
  have hptr : event.getMetadataValue 0 = some payload := by
    simp [TTLEvent.getMetadataValue, hval]
  unfold handleTTLEvent
  simp only [hid, hcount, hsize, hschema, hptr, hss, hdiv, hpos, ne_eq, not_true_eq_false,
    if_false, List.take_length]

/-- What `handleTTLEvent` does with an event that fails one of its four
checks. -/
theorem handleTTLEvent_rejected (s : RiverOutput) (event : TTLEvent)
    (hrej : event.getStreamId ≠ s.datastream_id ∨
      event.getMetadataValueCount ≠ 1 ∨
      event.getTotalEventMetadataSize = 0 ∨
      ∃ event_schema, s.event_schema_ = some event_schema ∧
        event_schema.sample_size ≠ 0 ∧
        event.getTotalEventMetadataSize % event_schema.sample_size ≠ 0) :
    handleTTLEvent s event = Except.ok { s with
      stream_id_to_stream_names :=
        lookupOrInsert s.stream_id_to_stream_names s.datastream_id } := by
  unfold handleTTLEvent
  by_cases h1 : event.getStreamId ≠ s.datastream_id
  · simp [h1]
  · by_cases h2 : event.getMetadataValueCount ≠ 1
    · simp [h1, h2]
    · by_cases h3 : event.getTotalEventMetadataSize = 0
      · simp [h1, h2, h3]
      · rcases hrej with h | h | h | ⟨event_schema, hschema, h4, h5⟩
        · exact absurd h h1
        · exact absurd h h2
        · exact absurd h h3
        · simp only [h1, h2, h3, hschema, h4, h5]
          simp
          intro h
          exact absurd h h5

/-- An event that passes the first three checks while no event schema is set
makes `handleTTLEvent` dereference the empty `event_schema_`. -/
theorem handleTTLEvent_without_schema (s : RiverOutput) (event : TTLEvent)
    (hschema : s.event_schema_ = none)
    (hid : event.getStreamId = s.datastream_id)
    (hcount : event.getMetadataValueCount = 1)
    (hpos : event.getTotalEventMetadataSize ≠ 0) :
    handleTTLEvent s event = Except.error Fault.nullDereference := by
  unfold handleTTLEvent
  simp [hid, hcount, hpos, hschema]

/-- An event that passes the first three checks while the event schema has
`sample_size = 0` makes `handleTTLEvent` take a remainder modulo zero. -/
theorem handleTTLEvent_zero_sample_size (s : RiverOutput) (event : TTLEvent)
    (event_schema : StreamSchema) (hschema : s.event_schema_ = some event_schema)
    (hzero : event_schema.sample_size = 0)
    (hid : event.getStreamId = s.datastream_id)
    (hcount : event.getMetadataValueCount = 1)
    (hpos : event.getTotalEventMetadataSize ≠ 0) :
    handleTTLEvent s event = Except.error Fault.divisionByZero := by
  unfold handleTTLEvent
  simp [hid, hcount, hpos, hschema, hzero]

/-! ## The event encoder -/

/-- C1. Rejection completeness of `handleTTLEvent`: in every state with an
event schema set, an event (a) of another upstream source, or (b) with a
metadata-value count other than 1, or (c) with total metadata size 0, or
(d) whose total metadata size leaves a non-zero remainder modulo the
`sample_size` of the event schema (the remainder being defined, i.e.
`sample_size` non-zero), yields no record: the handler returns normally, the
writer thread object with its pending queue is unchanged and so is the sink
with the list of appends it has observed. -/
theorem handleTTLEvent_rejection_complete (s : RiverOutput) (event : TTLEvent)
    (event_schema : StreamSchema) (hschema : s.event_schema_ = some event_schema)
    (hrej : event.getStreamId ≠ s.datastream_id ∨
      event.getMetadataValueCount ≠ 1 ∨
      event.getTotalEventMetadataSize = 0 ∨
      (event_schema.sample_size ≠ 0 ∧
        event.getTotalEventMetadataSize % event_schema.sample_size ≠ 0)) :
    ∃ s1, handleTTLEvent s event = Except.ok s1 ∧
      s1.writing_thread_ = s.writing_thread_ ∧ s1.writer_ = s.writer_ ∧
      s1.pending = s.pending ∧ s1.sinkLog = s.sinkLog := by
  refine ⟨{ s with stream_id_to_stream_names :=
      lookupOrInsert s.stream_id_to_stream_names s.datastream_id }, ?_, rfl, rfl, rfl, rfl⟩
  unfold handleTTLEvent
  by_cases h1 : event.getStreamId ≠ s.datastream_id
  · simp [h1]
  · by_cases h2 : event.getMetadataValueCount ≠ 1
    · simp [h1, h2]
    · by_cases h3 : event.getTotalEventMetadataSize = 0
      · simp [h1, h2, h3]
      · rcases hrej with h | h | h | ⟨h4, h5⟩
        · exact absurd h h1
        · exact absurd h h2
        · exact absurd h h3
        · simp only [h1, h2, h3, hschema, h4, h5]
          simp
          intro h
          exact absurd h h5

/-- C1, witness: `sample_size = 12` and a metadata payload of 30 bytes; the
event is rejected and the pending queue keeps its one batch. -/
theorem handleTTLEvent_rejection_complete_witness :
    schema12.sample_size = 12 ∧ (ttlOfSize 30).getTotalEventMetadataSize = 30 ∧
    ∃ s1, handleTTLEvent asyncState12 (ttlOfSize 30) = Except.ok s1 ∧
      s1.writing_thread_ = asyncState12.writing_thread_ ∧
      s1.writer_ = asyncState12.writer_ ∧
      s1.pending = asyncState12.pending ∧ s1.sinkLog = asyncState12.sinkLog :=
  ⟨by decide, by decide,
    handleTTLEvent_rejection_complete asyncState12 (ttlOfSize 30) schema12 rfl
      (Or.inr (Or.inr (Or.inr ⟨by decide, by decide⟩)))⟩

/-- C2, as amended. Batch size invariant and pass-through: for every event
that passes the four checks of `handleTTLEvent` (configured upstream source,
exactly one metadata value, metadata size `m > 0`, `m mod sample_size = 0`)
and whose quotient `m / sample_size` fits the `int` record count (it is below
`2147483648`), exactly one batch is produced: its raw bytes are the `m`
metadata bytes unmodified, its record count is `m / sample_size`, which is at
least 1, and the byte length is record count times `sample_size`. With a flush
task that batch is appended at the back of the pending queue; without one,
the same bytes and count are handed to the sink as one append. -/
theorem handleTTLEvent_batch (s : RiverOutput) (event : TTLEvent)
    (event_schema : StreamSchema) (hschema : s.event_schema_ = some event_schema)
    (hid : event.getStreamId = s.datastream_id)
    (hcount : event.getMetadataValueCount = 1)
    (hpos : event.getTotalEventMetadataSize ≠ 0)
    (hdiv : event.getTotalEventMetadataSize % event_schema.sample_size = 0)
    (hfit : event.getTotalEventMetadataSize / event_schema.sample_size < 2147483648) :
    ∃ payload : List Byte, ∃ record_count : Nat,
      event.metadataValues = [payload] ∧
      payload.length = event.getTotalEventMetadataSize ∧
      record_count = event.getTotalEventMetadataSize / event_schema.sample_size ∧
      1 ≤ record_count ∧
      payload.length = record_count * event_schema.sample_size ∧
      (∀ t, s.writing_thread_ = some t →
        handleTTLEvent s event = Except.ok { s with
          stream_id_to_stream_names :=
            lookupOrInsert s.stream_id_to_stream_names s.datastream_id
          writing_thread_ := some { t with
            queued_events_ := t.queued_events_ ++
              [{ rawData := payload, numSamples := record_count }] } }) ∧
      (s.writing_thread_ = none → ∀ w, s.writer_ = some w →
        handleTTLEvent s event = Except.ok { s with
          stream_id_to_stream_names :=
            lookupOrInsert s.stream_id_to_stream_names s.datastream_id
          writer_ := some { w with
            appended := w.appended ++
              [{ rawData := payload, numSamples := record_count }]
            total_samples_written_ := w.total_samples_written_ + record_count } }) := by
  obtain ⟨payload, hval⟩ : ∃ payload, event.metadataValues = [payload] :=
    List.length_eq_one.mp hcount
  have hsize := getTotalEventMetadataSize_single event payload hval
  rw [hsize] at hpos hdiv hfit
  rw [hsize]
  have hss : event_schema.sample_size ≠ 0 := by
    intro h0
    rw [h0, Nat.mod_zero] at hdiv
    exact hpos hdiv
  have hmul : payload.length =
      payload.length / event_schema.sample_size * event_schema.sample_size :=
    (Nat.div_mul_cancel (Nat.dvd_of_mod_eq_zero hdiv)).symm
  have hone : 1 ≤ payload.length / event_schema.sample_size := by
    rcases Nat.eq_zero_or_pos (payload.length / event_schema.sample_size) with h0 | h0
    · rw [h0, Nat.zero_mul] at hmul
      exact absurd hmul hpos
    · exact h0
  have hcast : toInt32 (Int.ofNat (payload.length / event_schema.sample_size)) =
      ((payload.length / event_schema.sample_size : Nat) : Int) :=
    toInt32_of_range _ (by simp only [Int.ofNat_eq_coe]; omega)
      (by simp only [Int.ofNat_eq_coe]; omega)
  have hnz : ((payload.length / event_schema.sample_size : Nat) : Int) ≠ 0 := by omega
  have key := handleTTLEvent_accepted s event event_schema payload hschema hid hval hpos hdiv
  rw [hcast] at key
  refine ⟨payload, payload.length / event_schema.sample_size, hval, rfl, rfl, hone, hmul,
    ?_, ?_⟩
  · intro t ht
    rw [key, ht]
    simp only [RiverWriterThread.enqueue, if_neg hnz]
  · intro ht w hw
    rw [key, ht, hw]
    simp only [StreamWriter.WriteBytes]

/-- C2, witness: 24 bytes of metadata on a schema with `sample_size = 12`, in
a session with a flush task; the batch of 2 records goes to the back of the
queue. -/
theorem handleTTLEvent_batch_witness :
    (ttlOfSize 24).getTotalEventMetadataSize / schema12.sample_size = 2 ∧
    ∃ payload : List Byte, ∃ record_count : Nat,
      (ttlOfSize 24).metadataValues = [payload] ∧
      payload.length = (ttlOfSize 24).getTotalEventMetadataSize ∧
      record_count = (ttlOfSize 24).getTotalEventMetadataSize / schema12.sample_size ∧
      1 ≤ record_count ∧
      payload.length = record_count * schema12.sample_size ∧
      (∀ t, asyncState12.writing_thread_ = some t →
        handleTTLEvent asyncState12 (ttlOfSize 24) = Except.ok { asyncState12 with
          stream_id_to_stream_names :=
            lookupOrInsert asyncState12.stream_id_to_stream_names asyncState12.datastream_id
          writing_thread_ := some { t with
            queued_events_ := t.queued_events_ ++
              [{ rawData := payload, numSamples := record_count }] } }) ∧
      (asyncState12.writing_thread_ = none → ∀ w, asyncState12.writer_ = some w →
        handleTTLEvent asyncState12 (ttlOfSize 24) = Except.ok { asyncState12 with
          stream_id_to_stream_names :=
            lookupOrInsert asyncState12.stream_id_to_stream_names asyncState12.datastream_id
          writer_ := some { w with
            appended := w.appended ++
              [{ rawData := payload, numSamples := record_count }]
            total_samples_written_ := w.total_samples_written_ + record_count } }) :=
  ⟨by decide,
    handleTTLEvent_batch asyncState12 (ttlOfSize 24) schema12 rfl (by decide) (by decide)
      (by decide) (by decide) (by decide)⟩

/-- C2, counterexample. An event of the configured upstream source with one
metadata value of `8589934592` bytes passes the four checks on a schema with
`sample_size = 4`, yet the batch that is enqueued has the record count
`-2147483648`, which is neither `m / sample_size = 2147483648` nor at least 1
(the narrowing `(int)` of the source wraps). -/
theorem handleTTLEvent_count_wraps :
    (ttlOfSize 8589934592).getStreamId = asyncState4.datastream_id ∧
    (ttlOfSize 8589934592).getMetadataValueCount = 1 ∧
    (ttlOfSize 8589934592).getTotalEventMetadataSize = 8589934592 ∧
    8589934592 % schema4.sample_size = 0 ∧
    8589934592 / schema4.sample_size = 2147483648 ∧
    (handleTTLEvent asyncState4 (ttlOfSize 8589934592)).map RiverOutput.pending =
      Except.ok (some [{ rawData := List.replicate 8589934592 5,
                         numSamples := -2147483648 }]) := by
  have hss : schema4.sample_size = 4 := by decide
  have hlen : (List.replicate 8589934592 (5 : Byte)).length = 8589934592 :=
    List.length_replicate _ _
  refine ⟨by decide, rfl, ?_, ?_, ?_, ?_⟩
  · rw [getTotalEventMetadataSize_single _ _ rfl, hlen]
  · rw [hss]
  · rw [hss]
  · rw [handleTTLEvent_accepted asyncState4 (ttlOfSize 8589934592) schema4
      (List.replicate 8589934592 5) rfl (by decide) rfl (by rw [hlen]; decide)
      (by rw [hlen, hss])]
    rw [hlen, hss]
    have hw : toInt32 (Int.ofNat (8589934592 / 4)) = -2147483648 := by
      unfold toInt32
      norm_num
    rw [hw]
    rfl

/-! ## The spike record -/

theorem natToBytes_length (width n : Nat) : (natToBytes width n).length = width := by
  induction width generalizing n with
  | zero => rfl
  | succ k ih => simp [natToBytes, ih]

theorem bytesToNat_natToBytes (width n : Nat) :
    bytesToNat (natToBytes width n) = n % 256 ^ width := by
  induction width generalizing n with
  | zero => simp [natToBytes, bytesToNat, Nat.mod_one]
  | succ k ih =>
    simp only [natToBytes, bytesToNat, ih]
    rw [pow_succ', Nat.mod_mul]

theorem encodeInt_length (bo : ByteOrder) (width : Nat) (z : Int) :
    (encodeInt bo width z).length = width := by
  cases bo <;> simp [encodeInt, natToBytes_length]

/-- Reading back a two's complement integer that fits its width. -/
theorem decodeInt_encodeInt (bo : ByteOrder) (width : Nat) (z : Int)
    (hlo : -(256 ^ width : Nat) ≤ 2 * z) (hhi : 2 * z < (256 ^ width : Nat)) :
    decodeInt bo (encodeInt bo width z) = z := by
  have hM : (0 : Int) < (256 ^ width : Nat) := by positivity
  have hdig : bytesToNat (natToBytes width (z % (256 ^ width : Nat)).toNat) =
      (z % (256 ^ width : Nat)).toNat := by
    rw [bytesToNat_natToBytes]
    apply Nat.mod_eq_of_lt
    have h1 := Int.emod_lt_of_pos z hM
    have h0 := Int.emod_nonneg z (ne_of_gt hM)
    omega
  have hval : decodeInt bo (encodeInt bo width z) =
      if 2 * (z % (256 ^ width : Nat)).toNat < 256 ^ width then
        ((z % (256 ^ width : Nat)).toNat : Int)
      else ((z % (256 ^ width : Nat)).toNat : Int) - (256 ^ width : Nat) := by
    cases bo <;>
      simp only [decodeInt, encodeInt, List.reverse_reverse, List.length_reverse,
        natToBytes_length, hdig]
  rw [hval]
  have h0 := Int.emod_nonneg z (ne_of_gt hM)
  rcases lt_or_le z 0 with hneg | hnn
  · have hm : z % (256 ^ width : Nat) = z + (256 ^ width : Nat) := by
      rw [← Int.add_emod_self]
      exact Int.emod_eq_of_lt (by omega) (by omega)
    rw [hm]
    have : ¬ 2 * (z + (256 ^ width : Nat)).toNat < 256 ^ width := by omega
    rw [if_neg this]
    omega
  · have hm : z % (256 ^ width : Nat) = z := Int.emod_eq_of_lt hnn (by omega)
    rw [hm]
    have : 2 * z.toNat < 256 ^ width := by omega
    rw [if_pos this]
    omega

/-- C3. Spike encoding: for every spike, `handleSpike` produces exactly one
batch with record count 1; its raw bytes have length 16, the `sample_size` of
the built-in spike schema (fields of widths 4, 4 and 8); bytes 0..3, 4..7 and
8..15, read in the byte order of the packed struct, are the channel index, the
sorted id and the sample number of the spike. With a flush task the batch is
appended at the back of the pending queue; without one it is handed to the
sink as one append. -/
theorem handleSpike_encoding (bo : ByteOrder) (s : RiverOutput) (spike : Spike) :
    ∃ record : List Byte,
      record.length = 16 ∧
      spike_schema_.sample_size = 16 ∧
      spike_schema_.field_definitions.map FieldDefinition.size = [4, 4, 8] ∧
      decodeInt bo (record.take 4) = spike.channelIndex ∧
      decodeInt bo ((record.drop 4).take 4) = spike.sortedId ∧
      decodeInt bo (record.drop 8) = spike.sampleNumber ∧
      (∀ t, s.writing_thread_ = some t →
        handleSpike bo s spike = Except.ok { s with
          writing_thread_ := some { t with
            queued_events_ := t.queued_events_ ++
              [{ rawData := record, numSamples := 1 }] } }) ∧
      (s.writing_thread_ = none → ∀ w, s.writer_ = some w →
        handleSpike bo s spike = Except.ok { s with
          writer_ := some { w with
            appended := w.appended ++ [{ rawData := record, numSamples := 1 }]
            total_samples_written_ := w.total_samples_written_ + 1 } }) := by
  have hc := spike.channelIndex_range
  have hu := spike.sortedId_range
  have hn := spike.sampleNumber_range
  have e1 : toInt32 (toInt32 spike.channelIndex) = spike.channelIndex := by
    rw [toInt32_of_range _ hc.1 hc.2, toInt32_of_range _ hc.1 hc.2]
  have e2 : toInt32 (spike.sortedId : Int) = spike.sortedId :=
    toInt32_of_range _ (by omega) (by omega)
  have e3 : toInt64 spike.sampleNumber = spike.sampleNumber :=
    toInt64_of_range _ hn.1 hn.2
  have hrec : (toRiverSpike spike).bytes bo =
      encodeInt bo 4 spike.channelIndex ++ (encodeInt bo 4 spike.sortedId ++
        encodeInt bo 8 spike.sampleNumber) := by
    simp only [RiverSpike.bytes, toRiverSpike, e1, e2, e3, List.append_assoc]
  have l1 := encodeInt_length bo 4 spike.channelIndex
  have l2 := encodeInt_length bo 4 (spike.sortedId : Int)
  have l3 := encodeInt_length bo 8 spike.sampleNumber
  refine ⟨(toRiverSpike spike).bytes bo, ?_, by decide, by decide, ?_, ?_, ?_, ?_, ?_⟩
  · rw [hrec]
    simp only [List.length_append, l1, l2, l3]
  · rw [hrec, List.take_left' l1]
    exact decodeInt_encodeInt bo 4 _ (by norm_num; omega) (by norm_num; omega)
  · rw [hrec, List.drop_left' l1, List.take_left' l2]
    exact decodeInt_encodeInt bo 4 _ (by norm_num; omega) (by norm_num; omega)
  · have h8 : (8 : Nat) = 4 + 4 := rfl
    rw [hrec, h8, ← List.drop_drop, List.drop_left' l1, List.drop_left' l2]
    exact decodeInt_encodeInt bo 8 _ (by norm_num; omega) (by norm_num; omega)
  · intro t ht
    simp [handleSpike, ht, RiverWriterThread.enqueue]
  · intro ht w hw
    simp [handleSpike, ht, hw, StreamWriter.WriteBytes]

/-- C3, witness: the spike on channel 3, unit 2, sample 1000, in a session
with a flush task and on a little-endian host. -/
theorem handleSpike_encoding_witness :
    ∃ record : List Byte,
      record.length = 16 ∧
      spike_schema_.sample_size = 16 ∧
      spike_schema_.field_definitions.map FieldDefinition.size = [4, 4, 8] ∧
      decodeInt ByteOrder.little (record.take 4) = spike0.channelIndex ∧
      decodeInt ByteOrder.little ((record.drop 4).take 4) = spike0.sortedId ∧
      decodeInt ByteOrder.little (record.drop 8) = spike0.sampleNumber ∧
      (∀ t, asyncState12.writing_thread_ = some t →
        handleSpike ByteOrder.little asyncState12 spike0 = Except.ok { asyncState12 with
          writing_thread_ := some { t with
            queued_events_ := t.queued_events_ ++
              [{ rawData := record, numSamples := 1 }] } }) ∧
      (asyncState12.writing_thread_ = none → ∀ w, asyncState12.writer_ = some w →
        handleSpike ByteOrder.little asyncState12 spike0 = Except.ok { asyncState12 with
          writer_ := some { w with
            appended := w.appended ++ [{ rawData := record, numSamples := 1 }]
            total_samples_written_ := w.total_samples_written_ + 1 } }) :=
  handleSpike_encoding ByteOrder.little asyncState12 spike0

/-! ## The asynchronous writer -/

theorem WriterSystem.init_consistent (w : StreamWriter) (p : Int) :
    (WriterSystem.init w p).Consistent w.appended := by
  simp [WriterSystem.Consistent, WriterSystem.init, WriterSystem.accepted,
    WriterSystem.inFlight, RiverWriterThread.new]

theorem WriterSystem.accepted_enqueue (sys sys1 : WriterSystem) (event : QueuedEvent)
    (h : sys1.enqueueCalls = sys.enqueueCalls ++ [event]) :
    sys1.accepted = sys.accepted ++ (if event.numSamples = 0 then [] else [event]) := by
  simp only [WriterSystem.accepted, h, List.filter_append]
  by_cases hz : event.numSamples = 0 <;> simp [hz]

theorem WriterSystem.step_consistent (base : List QueuedEvent) (sys sys1 : WriterSystem)
    (a : Action) (hc : sys.Consistent base) (hstep : sys.step a = some sys1) :
    sys1.Consistent base := by
  obtain ⟨h1, h2, h3⟩ := hc
  cases a with
  | enqueue event =>
    simp only [WriterSystem.step, Option.some.injEq] at hstep
    subst hstep
    refine ⟨?_, ?_, ?_⟩
    · rw [WriterSystem.accepted_enqueue sys _ event rfl, h1]
      by_cases hz : event.numSamples = 0 <;> simp [RiverWriterThread.enqueue, hz]
    · have hfl : ∀ t : RiverWriterThread, (t.enqueue event).at_ = t.at_ := by
        intro t
        by_cases hz : event.numSamples = 0 <;> simp [RiverWriterThread.enqueue, hz]
      simp only [WriterSystem.inFlight, hfl] at h2 ⊢
      exact h2
    · intro e he
      by_cases hz : event.numSamples = 0
      · simp only [RiverWriterThread.enqueue, hz, if_true] at he
        exact h3 e he
      · simp only [RiverWriterThread.enqueue, hz, if_false, List.mem_append,
          List.mem_singleton] at he
        rcases he with he | he
        · exact h3 e he
        · rw [he]; exact hz
  | signalExit =>
    simp only [WriterSystem.step, Option.some.injEq] at hstep
    subst hstep
    exact ⟨h1, h2, h3⟩
  | flushTask =>
    simp only [WriterSystem.step] at hstep
    cases hrun : sys.thread.runStep sys.writer with
    | none => rw [hrun] at hstep; exact absurd hstep (by simp)
    | some r =>
      obtain ⟨t, w⟩ := r
      rw [hrun] at hstep
      simp only [Option.some.injEq] at hstep
      subst hstep
      unfold RiverWriterThread.runStep at hrun
      unfold WriterSystem.Consistent
      change sys.accepted = _ ∧ _
      rw [h1]
      simp only [WriterSystem.inFlight] at h2 ⊢
      cases hat : sys.thread.at_ with
      | loopHead =>
        rw [hat] at hrun h2
        by_cases hx : sys.thread.shouldExit = true <;>
          simp [hx] at hrun <;> obtain ⟨rfl, rfl⟩ := hrun <;> simp at h2 ⊢ <;>
          exact ⟨h2, h3⟩
      | drain =>
        rw [hat] at hrun h2
        cases hq : sys.thread.queued_events_ with
        | nil =>
          rw [hq] at hrun h3
          simp at hrun h2
          obtain ⟨rfl, rfl⟩ := hrun
          simp [hq]
          exact h2
        | cons e rest =>
          rw [hq] at hrun h3
          simp at hrun h2
          obtain ⟨rfl, rfl⟩ := hrun
          simp [hq]
          refine ⟨by rw [← List.append_assoc, h2], ?_⟩
          intro x hx
          exact h3 x (List.mem_cons_of_mem _ hx)
      | write e =>
        rw [hat] at hrun h2
        simp at hrun h2
        obtain ⟨rfl, rfl⟩ := hrun
        simp [StreamWriter.WriteBytes]
        exact ⟨h2, h3⟩
      | checkExit =>
        rw [hat] at hrun h2
        by_cases hx : sys.thread.shouldExit = true <;>
          simp [hx] at hrun <;> obtain ⟨rfl, rfl⟩ := hrun <;> simp at h2 ⊢ <;>
          exact ⟨h2, h3⟩
      | sleep =>
        rw [hat] at hrun h2
        simp at hrun h2
        obtain ⟨rfl, rfl⟩ := hrun
        simp
        exact ⟨h2, h3⟩
      | exited =>
        rw [hat] at hrun
        simp at hrun

theorem WriterSystem.exec_consistent (base : List QueuedEvent) (acts : List Action)
    (sys sys1 : WriterSystem) (hc : sys.Consistent base)
    (hexec : sys.exec acts = some sys1) : sys1.Consistent base := by
  induction acts generalizing sys with
  | nil =>
    simp only [WriterSystem.exec, Option.some.injEq] at hexec
    rw [← hexec]; exact hc
  | cons a rest ih =>
    simp only [WriterSystem.exec] at hexec
    cases hstep : sys.step a with
    | none => rw [hstep] at hexec; exact absurd hexec (by simp)
    | some sys2 =>
      rw [hstep] at hexec
      exact ih sys2 (WriterSystem.step_consistent base sys sys2 a hc hstep) hexec

theorem WriterSystem.exec_append (sys : WriterSystem) (as bs : List Action) :
    sys.exec (as ++ bs) = (sys.exec as).bind (fun sys1 => sys1.exec bs) := by
  induction as generalizing sys with
  | nil => rfl
  | cons a rest ih =>
    simp only [List.cons_append, WriterSystem.exec]
    cases sys.step a with
    | none => rfl
    | some sys2 => exact ih sys2

theorem WriterSystem.exec_enqueuedIn (acts : List Action) (sys sys1 : WriterSystem)
    (hexec : sys.exec acts = some sys1) :
    sys1.enqueueCalls = sys.enqueueCalls ++ enqueuedIn acts := by
  induction acts generalizing sys with
  | nil =>
    simp only [WriterSystem.exec, Option.some.injEq] at hexec
    simp [enqueuedIn, ← hexec]
  | cons a rest ih =>
    simp only [WriterSystem.exec] at hexec
    cases hstep : sys.step a with
    | none => rw [hstep] at hexec; exact absurd hexec (by simp)
    | some sys2 =>
      rw [hstep] at hexec
      rw [ih sys2 hexec]
      cases a with
      | enqueue event =>
        simp only [WriterSystem.step, Option.some.injEq] at hstep
        subst hstep
        simp [enqueuedIn]
      | signalExit =>
        simp only [WriterSystem.step, Option.some.injEq] at hstep
        subst hstep
        simp [enqueuedIn]
      | flushTask =>
        simp only [WriterSystem.step] at hstep
        cases hrun : sys.thread.runStep sys.writer with
        | none => rw [hrun] at hstep; exact absurd hstep (by simp)
        | some r =>
          rw [hrun] at hstep
          simp only [Option.some.injEq] at hstep
          subst hstep
          simp [enqueuedIn]

/-- The inner loop of `run`, left alone, empties the queue into the sink in
queue order and ends at the cancellation check. -/
theorem WriterSystem.exec_drain (q : List QueuedEvent) (sys : WriterSystem)
    (hat : sys.thread.at_ = RunPoint.drain) (hq : sys.thread.queued_events_ = q) :
    ∃ sys1, sys.exec (flushSteps (2 * q.length + 1)) = some sys1 ∧
      sys1.thread.queued_events_ = [] ∧ sys1.thread.at_ = RunPoint.checkExit ∧
      sys1.writer.appended = sys.writer.appended ++ q ∧
      sys1.enqueueCalls = sys.enqueueCalls := by
  induction q generalizing sys with
  | nil =>
    refine ⟨{ sys with thread := { sys.thread with at_ := RunPoint.checkExit } }, ?_, ?_⟩
    · simp [flushSteps, WriterSystem.exec, WriterSystem.step, RiverWriterThread.runStep,
        hat, hq]
    · simp [hq]
  | cons e rest ih =>
    have hsteps : flushSteps (2 * (e :: rest).length + 1) =
        Action.flushTask :: Action.flushTask :: flushSteps (2 * rest.length + 1) := by
      simp only [flushSteps, List.length_cons]
      rw [show 2 * (rest.length + 1) + 1 = (2 * rest.length + 1) + 1 + 1 by ring]
      rfl
    obtain ⟨sys1, h1, h2, h3, h4, h5⟩ := ih
      { sys with
        thread := { sys.thread with queued_events_ := rest, at_ := RunPoint.drain }
        writer := sys.writer.WriteBytes e.rawData e.numSamples
        removed := sys.removed ++ [e] } rfl rfl
    refine ⟨sys1, ?_, h2, h3, ?_, h5⟩
    · rw [hsteps, ← h1]
      simp [WriterSystem.exec, WriterSystem.step, RiverWriterThread.runStep, hat, hq]
    · rw [h4]
      simp [StreamWriter.WriteBytes]

/-- C4. FIFO preservation. Start the flush task on a sink that has observed
no append yet. After every interleaving of producer `enqueue` steps, atomic
actions of the flush task and raising of the exit flag, the batches with
non-zero record count passed to `enqueue` so far are, in order, the batches
appended to the sink, then the batch in flight, then the queue; so the
appends the sink has observed are a prefix of the accepted batches, and they
are all of them once the queue is empty and no batch is in flight. In
particular, when batches with non-zero record counts are enqueued and the
flush task then runs its drain, the sink observes exactly these batches, in
the order of the `enqueue` calls. -/
theorem fifo_preservation (w0 : StreamWriter) (p : Int) (hw : w0.appended = []) :
    (∀ acts sys, (WriterSystem.init w0 p).exec acts = some sys →
      sys.accepted = (enqueuedIn acts).filter (fun event => event.numSamples ≠ 0) ∧
      sys.accepted = sys.writer.appended ++ sys.inFlight ++ sys.thread.queued_events_ ∧
      sys.writer.appended <+: sys.accepted ∧
      (sys.thread.queued_events_ = [] → sys.inFlight = [] →
        sys.writer.appended = sys.accepted)) ∧
    (∀ batches : List QueuedEvent, (∀ b ∈ batches, b.numSamples ≠ 0) →
      ∃ sys, (WriterSystem.init w0 p).exec
          (enqueueAll batches ++ flushSteps (2 * batches.length + 2)) = some sys ∧
        sys.writer.appended = batches ∧ sys.thread.queued_events_ = [] ∧
        sys.inFlight = []) := by
  have main : ∀ acts sys, (WriterSystem.init w0 p).exec acts = some sys →
      sys.accepted = (enqueuedIn acts).filter (fun event => event.numSamples ≠ 0) ∧
      sys.accepted = sys.writer.appended ++ sys.inFlight ++ sys.thread.queued_events_ := by
    intro acts sys hexec
    have hc := WriterSystem.exec_consistent w0.appended acts _ sys
      (WriterSystem.init_consistent w0 p) hexec
    have hcalls := WriterSystem.exec_enqueuedIn acts _ sys hexec
    obtain ⟨h1, h2, _⟩ := hc
    rw [hw, List.nil_append] at h2
    refine ⟨?_, ?_⟩
    · simp only [WriterSystem.accepted, hcalls, WriterSystem.init, List.nil_append]
    · rw [h1, h2]
  refine ⟨?_, ?_⟩
  · intro acts sys hexec
    obtain ⟨ha, hb⟩ := main acts sys hexec
    refine ⟨ha, hb, ?_, ?_⟩
    · rw [hb, List.append_assoc]
      exact List.prefix_append _ _
    · intro hq hf
      rw [hb, hq, hf, List.append_nil, List.append_nil]
  · intro batches hnz
    have hsteps : flushSteps (2 * batches.length + 2) =
        Action.flushTask :: flushSteps (2 * batches.length + 1) := rfl
    have henq : ∀ (bs : List QueuedEvent) (sys : WriterSystem),
        (∀ b ∈ bs, b.numSamples ≠ 0) →
        sys.exec (enqueueAll bs) = some { sys with
          thread := { sys.thread with
            queued_events_ := sys.thread.queued_events_ ++ bs }
          enqueueCalls := sys.enqueueCalls ++ bs } := by
      intro bs
      induction bs with
      | nil => intro sys _; simp [enqueueAll, WriterSystem.exec]
      | cons b rest ih =>
        intro sys hb
        have hb0 : b.numSamples ≠ 0 := hb b (List.mem_cons_self _ _)
        have hrest : ∀ x ∈ rest, x.numSamples ≠ 0 :=
          fun x hx => hb x (List.mem_cons_of_mem _ hx)
        simp only [enqueueAll, List.map_cons, WriterSystem.exec, WriterSystem.step] at ih ⊢
        rw [ih _ hrest]
        simp [RiverWriterThread.enqueue, hb0]
    obtain ⟨sys1, h1, h2, h3, h4, _⟩ := WriterSystem.exec_drain batches
      { thread := { RiverWriterThread.new p with
          queued_events_ := batches, at_ := RunPoint.drain }
        writer := w0, enqueueCalls := batches, removed := [] } rfl rfl
    refine ⟨sys1, ?_, ?_, h2, ?_⟩
    · rw [WriterSystem.exec_append, henq batches _ hnz, hsteps, ← h1]
      simp [WriterSystem.exec, WriterSystem.step, RiverWriterThread.runStep,
        WriterSystem.init, RiverWriterThread.new]
    · rw [h4, hw, List.nil_append]
    · simp [WriterSystem.inFlight, h3]

/-- C4, witness: two batches enqueued, then six atomic actions of the flush
task; the sink has observed the two batches in the order of the calls. -/
theorem fifo_preservation_witness :
    writer12.appended = [] ∧
    ∃ sys, (WriterSystem.init writer12 7).exec
        (enqueueAll [batchA, batchB] ++ flushSteps (2 * [batchA, batchB].length + 2)) =
          some sys ∧
      sys.writer.appended = [batchA, batchB] ∧ sys.thread.queued_events_ = [] ∧
      sys.inFlight = [] :=
  ⟨rfl, (fifo_preservation writer12 7 rfl).2 [batchA, batchB] (by decide)⟩

/-- C5. No loss on drain. Start the flush task on a sink that has observed no
append yet. In every state reached by an interleaving in which the flush task
is at a point where it reads the cancellation signal (the head of the outer
loop, the check after the drain) or has returned from `run`, no batch is in
flight, the batches removed from the queue so far are exactly the appends the
sink has observed (each removed batch once, in order), and these appends
followed by the queue are exactly the accepted batches. -/
theorem no_loss_on_drain (w0 : StreamWriter) (p : Int) (hw : w0.appended = [])
    (acts : List Action) (sys : WriterSystem)
    (hexec : (WriterSystem.init w0 p).exec acts = some sys)
    (hpoint : sys.atCheckOrExit = true) :
    sys.inFlight = [] ∧
    sys.removed = sys.writer.appended ∧
    sys.writer.appended ++ sys.thread.queued_events_ = sys.accepted ∧
    sys.accepted = (enqueuedIn acts).filter (fun event => event.numSamples ≠ 0) := by
  have hc := WriterSystem.exec_consistent w0.appended acts _ sys
    (WriterSystem.init_consistent w0 p) hexec
  have hcalls := WriterSystem.exec_enqueuedIn acts _ sys hexec
  obtain ⟨h1, h2, _⟩ := hc
  rw [hw, List.nil_append] at h2
  have hfl : sys.inFlight = [] := by
    unfold WriterSystem.atCheckOrExit at hpoint
    unfold WriterSystem.inFlight
    cases hat : sys.thread.at_
    all_goals first | rfl | (rw [hat] at hpoint; exact absurd hpoint (by simp))
  rw [hfl, List.append_nil] at h2
  refine ⟨hfl, h2, ?_, ?_⟩
  · rw [h1, h2]
  · simp only [WriterSystem.accepted, hcalls, WriterSystem.init, List.nil_append]

/-- C5, witness: one batch is enqueued, the flush task passes the loop head,
removes the batch, appends it and finds the queue empty; a second batch is
enqueued while the flush task is at the cancellation check. -/
theorem no_loss_on_drain_witness :
    (WriterSystem.init writer12 7).exec interleavingAtCheck = some systemAtCheck ∧
    systemAtCheck.atCheckOrExit = true ∧
    systemAtCheck.writer.appended = [batchA] ∧
    systemAtCheck.thread.queued_events_ = [batchB] ∧
    (systemAtCheck.inFlight = [] ∧
      systemAtCheck.removed = systemAtCheck.writer.appended ∧
      systemAtCheck.writer.appended ++ systemAtCheck.thread.queued_events_ =
        systemAtCheck.accepted ∧
      systemAtCheck.accepted =
        (enqueuedIn interleavingAtCheck).filter (fun event => event.numSamples ≠ 0)) :=
  ⟨rfl, rfl, rfl, rfl,
    no_loss_on_drain writer12 7 rfl interleavingAtCheck systemAtCheck rfl rfl⟩

/-- C8. Producer contract of `enqueue`: a batch with record count 0 leaves the
thread object and its queue unchanged; any other batch is appended at the back
of the queue, whatever the length of the queue: the length grows by one and
the earlier elements stay in place. Hence in every state that an interleaving
reaches from the start of the flush task, no batch in the pending queue has
record count 0. -/
theorem enqueue_contract :
    (∀ (t : RiverWriterThread) (event : QueuedEvent), event.numSamples = 0 →
      t.enqueue event = t) ∧
    (∀ (t : RiverWriterThread) (event : QueuedEvent), event.numSamples ≠ 0 →
      t.enqueue event = { t with queued_events_ := t.queued_events_ ++ [event] } ∧
      (t.enqueue event).queued_events_.length = t.queued_events_.length + 1 ∧
      (t.enqueue event).queued_events_.take t.queued_events_.length = t.queued_events_ ∧
      (t.enqueue event).queued_events_.getLast? = some event) ∧
    (∀ (w0 : StreamWriter) (p : Int) (acts : List Action) (sys : WriterSystem),
      (WriterSystem.init w0 p).exec acts = some sys →
      ∀ event ∈ sys.thread.queued_events_, event.numSamples ≠ 0) := by
  refine ⟨?_, ?_, ?_⟩
  · intro t event hz
    simp [RiverWriterThread.enqueue, hz]
  · intro t event hz
    simp [RiverWriterThread.enqueue, hz]
  · intro w0 p acts sys hexec
    exact (WriterSystem.exec_consistent w0.appended acts _ sys
      (WriterSystem.init_consistent w0 p) hexec).2.2

/-- C8, witness: a batch with record count 0 is passed to `enqueue` between
two other batches; the queue holds the two other batches only. -/
theorem enqueue_contract_witness :
    (WriterSystem.init writer12 7).exec
      [Action.enqueue batchA, Action.enqueue batchZero, Action.enqueue batchB] =
        some systemAfterEnqueues ∧
    systemAfterEnqueues.thread.queued_events_ = [batchA, batchB] ∧
    ∀ event ∈ systemAfterEnqueues.thread.queued_events_, event.numSamples ≠ 0 :=
  ⟨rfl, rfl, enqueue_contract.2.2 writer12 7
    [Action.enqueue batchA, Action.enqueue batchZero, Action.enqueue batchB]
    systemAfterEnqueues rfl⟩

/-! ## Session start and stop -/

theorem exactlyOneMode_iff (s : RiverOutput) :
    s.exactlyOneMode ↔ (s.writing_thread_.isSome = true → s.sessionOpen = true) := by
  unfold RiverOutput.exactlyOneMode RiverOutput.isIdle RiverOutput.isSynchronous
    RiverOutput.isAsynchronous
  cases s.sessionOpen <;> cases s.writing_thread_ <;> simp

/-- What a call of `startAcquisition` that passes the configuration check
does. -/
theorem startAcquisition_configured (host : Host) (s : RiverOutput)
    (hcfg : (s.stream_name.isEmpty || s.redis_connection_hostname.isEmpty ||
      decide (s.redis_connection_port ≤ 0)) = false) :
    startAcquisition host s =
      if host.constructorThrows then
        StartResult.returned false
          { s with writer_ := none, writing_thread_ := none, isEnabled := false }
      else if shouldConsumeSpikes s && s.spikeChannels == 0 then
        StartResult.returned false
          { s with writer_ := some StreamWriter.fresh, writing_thread_ := none }
      else if host.initializeThrows then
        StartResult.threw
          { s with writer_ := some StreamWriter.fresh, writing_thread_ := none }
      else
        StartResult.returned true
          { s with
            writer_ := some (StreamWriter.fresh.Initialize s.stream_name (getSchema s)
              (if shouldConsumeSpikes s then
                [ ("prepeak_samples", toString host.prePeakSamples),
                  ("postpeak_samples", toString host.postPeakSamples),
                  ("sampling_rate", host.globalSampleRate) ]
              else []))
            writing_thread_ :=
              if s.max_latency_ms > 0 then some (RiverWriterThread.new s.max_latency_ms)
              else none
            editor := s.editor.map (fun _ => { enabled := true }) } := by
  unfold startAcquisition
  simp only [hcfg, shouldConsumeSpikes, getSchema]
  cases hth : s.writing_thread_ <;> cases hwr : s.writer_ <;>
    cases host.constructorThrows <;> cases host.initializeThrows <;>
    cases hsp : (s.event_schema_.isNone && s.spikeChannels == 0) <;>
    by_cases hl : s.max_latency_ms > 0 <;>
    simp [hl, hth, hwr, StreamWriter.Initialize, StreamWriter.fresh] <;>
    simpa using hsp

theorem startAcquisition_unconfigured (host : Host) (s : RiverOutput)
    (hcfg : (s.stream_name.isEmpty || s.redis_connection_hostname.isEmpty ||
      decide (s.redis_connection_port ≤ 0)) = true) :
    startAcquisition host s = StartResult.returned false s := by
  unfold startAcquisition
  simp only [hcfg, if_true]

theorem stopAcquisition_state (host : Host) (s : RiverOutput) :
    (stopAcquisition host s).1 = true ∧
    (stopAcquisition host s).2.writing_thread_ = none ∧
    (stopAcquisition host s).2.sessionOpen = false := by
  unfold stopAcquisition RiverOutput.sessionOpen
  cases hth : s.writing_thread_ <;> cases hwr : s.writer_ <;>
    simp [hth, hwr, StreamWriter.Stop]

/-- C6. Mode selection at start. Whenever `startAcquisition` returns `true`:
if `max_latency_ms <= 0` the resulting state is Synchronous (an open writer
session, no flush task); if `max_latency_ms = p > 0` it is Asynchronous and
its one flush task is a new `RiverWriterThread` with flush period `p`.
Exactly one of Idle, Synchronous, Asynchronous holds in the state the
constructor leaves, every call of `startAcquisition`, whatever its outcome,
preserves this, and it holds after every call of `stopAcquisition`. -/
theorem mode_selection (host : Host) (s : RiverOutput) :
    (∀ s1, startAcquisition host s = StartResult.returned true s1 →
      (s.max_latency_ms ≤ 0 →
        s1.isSynchronous = true ∧ s1.writing_thread_ = none ∧
        ∃ w, s1.writer_ = some w ∧ w.stopped = false) ∧
      (0 < s.max_latency_ms →
        s1.isAsynchronous = true ∧
        s1.writing_thread_ = some (RiverWriterThread.new s.max_latency_ms) ∧
        (RiverWriterThread.new s.max_latency_ms).batch_period_ms_ = s.max_latency_ms ∧
        ∃ w, s1.writer_ = some w ∧ w.stopped = false)) ∧
    RiverOutput.new.exactlyOneMode ∧
    (s.exactlyOneMode → (startAcquisition host s).state.exactlyOneMode) ∧
    (stopAcquisition host s).2.exactlyOneMode := by
  refine ⟨?_, ?_, ?_, ?_⟩
  · intro s1 hstart
    cases hcfg : (s.stream_name.isEmpty || s.redis_connection_hostname.isEmpty ||
      decide (s.redis_connection_port ≤ 0)) with
    | true =>
      rw [startAcquisition_unconfigured host s hcfg] at hstart
      simp at hstart
    | false =>
      rw [startAcquisition_configured host s hcfg] at hstart
      by_cases h1 : host.constructorThrows = true
      · rw [if_pos h1] at hstart
        simp at hstart
      · by_cases h2 : (shouldConsumeSpikes s && s.spikeChannels == 0) = true
        · rw [if_neg h1, if_pos h2] at hstart
          simp at hstart
        · by_cases h3 : host.initializeThrows = true
          · rw [if_neg h1, if_neg h2, if_pos h3] at hstart
            simp at hstart
          · rw [if_neg h1, if_neg h2, if_neg h3] at hstart
            simp only [StartResult.returned.injEq, true_and] at hstart
            subst hstart
            refine ⟨?_, ?_⟩
            · intro hle
              have hl : ¬ s.max_latency_ms > 0 := by omega
              simp [RiverOutput.isSynchronous, RiverOutput.sessionOpen, hl,
                StreamWriter.Initialize, StreamWriter.fresh]
            · intro hpos
              have hl : s.max_latency_ms > 0 := hpos
              simp [RiverOutput.isAsynchronous, RiverOutput.sessionOpen, hl,
                StreamWriter.Initialize, StreamWriter.fresh, RiverWriterThread.new]
  · rw [exactlyOneMode_iff]
    simp [RiverOutput.new]
  · intro hone
    rw [exactlyOneMode_iff] at hone ⊢
    cases hcfg : (s.stream_name.isEmpty || s.redis_connection_hostname.isEmpty ||
      decide (s.redis_connection_port ≤ 0)) with
    | true =>
      rw [startAcquisition_unconfigured host s hcfg]
      exact hone
    | false =>
      rw [startAcquisition_configured host s hcfg]
      split_ifs <;>
        simp [StartResult.state, RiverOutput.sessionOpen, StreamWriter.Initialize,
          StreamWriter.fresh]
  · rw [exactlyOneMode_iff]
    intro h
    rw [(stopAcquisition_state host s).2.1] at h
    simp at h

/-- C6, witness: with `max_latency_ms = 7` the start succeeds and the state is
Asynchronous with a flush task of period 7; with `max_latency_ms = 0` it is
Synchronous. -/
theorem mode_selection_witness :
    (∃ s1, startAcquisition hostOk configured7 = StartResult.returned true s1 ∧
      s1.isAsynchronous = true ∧
      s1.writing_thread_ = some (RiverWriterThread.new 7) ∧
      (RiverWriterThread.new 7).batch_period_ms_ = 7) ∧
    (∃ s1, startAcquisition hostOk configured0 = StartResult.returned true s1 ∧
      s1.isSynchronous = true ∧ s1.writing_thread_ = none) :=
  ⟨⟨_, rfl,
      (((mode_selection hostOk configured7).1 _ rfl).2 (by decide)).1,
      (((mode_selection hostOk configured7).1 _ rfl).2 (by decide)).2.1,
      (((mode_selection hostOk configured7).1 _ rfl).2 (by decide)).2.2.1⟩,
    ⟨_, rfl,
      (((mode_selection hostOk configured0).1 _ rfl).1 (by decide)).1,
      (((mode_selection hostOk configured0).1 _ rfl).1 (by decide)).2.1⟩⟩

/-- C9. Start with an empty stream name: from a state without writer session
and without flush task, whatever the other options and the outside world,
`startAcquisition` returns `false` and leaves the state as it is, so no
writer session and no flush task are created; a following `stopAcquisition`
returns `true` and the state still has no writer session and no flush task. -/
theorem start_with_empty_stream_name (host host1 : Host) (s : RiverOutput)
    (hwriter : s.writer_ = none) (hthread : s.writing_thread_ = none)
    (hname : s.stream_name = "") :
    startAcquisition host s = StartResult.returned false s ∧
    (startAcquisition host s).state.writer_ = none ∧
    (startAcquisition host s).state.writing_thread_ = none ∧
    (stopAcquisition host1 (startAcquisition host s).state).1 = true ∧
    (stopAcquisition host1 (startAcquisition host s).state).2.writer_ = none ∧
    (stopAcquisition host1 (startAcquisition host s).state).2.writing_thread_ = none ∧
    (stopAcquisition host1 (startAcquisition host s).state).2.isIdle = true := by
  have hcfg : (s.stream_name.isEmpty || s.redis_connection_hostname.isEmpty ||
      decide (s.redis_connection_port ≤ 0)) = true := by
    rw [hname]
    rfl
  have hstart := startAcquisition_unconfigured host s hcfg
  rw [hstart]
  simp [StartResult.state, stopAcquisition, RiverOutput.isIdle, RiverOutput.sessionOpen,
    hwriter, hthread]

/-- C9, witness: the state the constructor leaves has the empty stream name,
no writer and no flush task. -/
theorem start_with_empty_stream_name_witness :
    startAcquisition hostOk RiverOutput.new = StartResult.returned false RiverOutput.new ∧
    (startAcquisition hostOk RiverOutput.new).state.writer_ = none ∧
    (startAcquisition hostOk RiverOutput.new).state.writing_thread_ = none ∧
    (stopAcquisition hostOk (startAcquisition hostOk RiverOutput.new).state).1 = true ∧
    (stopAcquisition hostOk (startAcquisition hostOk RiverOutput.new).state).2.writer_ =
      none ∧
    (stopAcquisition hostOk
      (startAcquisition hostOk RiverOutput.new).state).2.writing_thread_ = none ∧
    (stopAcquisition hostOk (startAcquisition hostOk RiverOutput.new).state).2.isIdle =
      true :=
  start_with_empty_stream_name hostOk hostOk RiverOutput.new rfl rfl rfl

/-- C10, the failing input. A configured processor in spike-consuming mode
without spike channels, no session before: the sink connects,
`startAcquisition` returns `false`, and yet `writer_` holds the writer that was
constructed, not stopped: the state is not Idle. -/
theorem start_without_spike_channels_keeps_writer :
    configuredNoSpikeChannels.isIdle = true ∧
    startAcquisition hostOk configuredNoSpikeChannels =
      StartResult.returned false
        { configuredNoSpikeChannels with writer_ := some StreamWriter.fresh } ∧
    (startAcquisition hostOk configuredNoSpikeChannels).state.sessionOpen = true ∧
    (startAcquisition hostOk configuredNoSpikeChannels).state.isIdle = false :=
  ⟨rfl, rfl, rfl, rfl⟩

/-! ## Synchronous and asynchronous sessions -/

theorem RiverWriterThread.runSteps_succ (n : Nat) (t t1 : RiverWriterThread)
    (w w1 : StreamWriter) (h : t.runStep w = some (t1, w1)) :
    RiverWriterThread.runSteps (n + 1) t w = RiverWriterThread.runSteps n t1 w1 := by
  simp only [RiverWriterThread.runSteps, h]

theorem RiverWriterThread.runSteps_drain (q : List QueuedEvent) (t : RiverWriterThread)
    (w : StreamWriter) (hat : t.at_ = RunPoint.drain) (hq : t.queued_events_ = q) :
    (RiverWriterThread.runSteps (2 * q.length + 1) t w).1.queued_events_ = [] ∧
    (RiverWriterThread.runSteps (2 * q.length + 1) t w).2.appended = w.appended ++ q := by
  induction q generalizing t w with
  | nil =>
    simp [RiverWriterThread.runSteps, RiverWriterThread.runStep, hat, hq]
  | cons e rest ih =>
    have hn : 2 * (e :: rest).length + 1 = (2 * rest.length + 1) + 1 + 1 := by
      simp only [List.length_cons]; ring
    have h := ih { t with queued_events_ := rest, at_ := RunPoint.drain }
      (w.WriteBytes e.rawData e.numSamples) rfl rfl
    have s1 : t.runStep w =
        some ({ t with queued_events_ := rest, at_ := RunPoint.write e }, w) := by
      simp [RiverWriterThread.runStep, hat, hq]
    have s2 : RiverWriterThread.runStep
        { t with queued_events_ := rest, at_ := RunPoint.write e } w =
        some ({ t with queued_events_ := rest, at_ := RunPoint.drain },
          w.WriteBytes e.rawData e.numSamples) := by
      simp [RiverWriterThread.runStep]
    rw [hn, RiverWriterThread.runSteps_succ _ _ _ _ _ s1,
      RiverWriterThread.runSteps_succ _ _ _ _ _ s2]
    refine ⟨h.1, ?_⟩
    rw [h.2]
    simp [StreamWriter.WriteBytes]

theorem RiverWriterThread.runSteps_from_loopHead (q : List QueuedEvent)
    (t : RiverWriterThread) (w : StreamWriter) (hat : t.at_ = RunPoint.loopHead)
    (hx : t.shouldExit = false) (hq : t.queued_events_ = q) :
    (RiverWriterThread.runSteps (2 * q.length + 2) t w).1.queued_events_ = [] ∧
    (RiverWriterThread.runSteps (2 * q.length + 2) t w).2.appended = w.appended ++ q := by
  have h := RiverWriterThread.runSteps_drain q { t with at_ := RunPoint.drain } w rfl hq
  have hn : 2 * q.length + 2 = (2 * q.length + 1) + 1 := by ring
  have s1 : t.runStep w = some ({ t with at_ := RunPoint.drain }, w) := by
    simp [RiverWriterThread.runStep, hat, hx]
  rw [hn, RiverWriterThread.runSteps_succ _ _ _ _ _ s1]
  exact h

theorem enqueue_keeps_control (t : RiverWriterThread) (event : QueuedEvent) :
    (t.enqueue event).at_ = t.at_ ∧ (t.enqueue event).shouldExit = t.shouldExit := by
  by_cases hz : event.numSamples = 0 <;> simp [RiverWriterThread.enqueue, hz]

theorem handleSpike_syncAsync (bo : ByteOrder) (schema : Option StreamSchema)
    (s a : RiverOutput) (spike : Spike) (h : SyncAsync schema s a) :
    ResultsAgree (SyncAsync schema) (handleSpike bo s spike) (handleSpike bo a spike) := by
  obtain ⟨w, wa, t, hw, ht, hwa, hta, happ, hat, hx, hs, ha, hid⟩ := h
  simp only [handleSpike, ht, hw, hta, ResultsAgree]
  refine ⟨_, wa, _, rfl, rfl, hwa, rfl, ?_, ?_, ?_, hs, ha, hid⟩
  · simp [StreamWriter.WriteBytes, RiverWriterThread.enqueue, happ]
  · rw [(enqueue_keeps_control t _).1]; exact hat
  · rw [(enqueue_keeps_control t _).2]; exact hx

theorem handleTTLEvent_syncAsync (schema : Option StreamSchema) (s a : RiverOutput)
    (event : TTLEvent) (h : SyncAsync schema s a)
    (hcount : ∀ event_schema, schema = some event_schema →
      countWrapsToZero event_schema event = false) :
    ResultsAgree (SyncAsync schema) (handleTTLEvent s event) (handleTTLEvent a event) := by
  obtain ⟨w, wa, t, hw, ht, hwa, hta, happ, hat, hx, hs, ha, hid⟩ := h
  have keep : SyncAsync schema
      { s with stream_id_to_stream_names :=
          lookupOrInsert s.stream_id_to_stream_names s.datastream_id }
      { a with stream_id_to_stream_names :=
          lookupOrInsert a.stream_id_to_stream_names a.datastream_id } :=
    ⟨w, wa, t, hw, ht, hwa, hta, happ, hat, hx, hs, ha, hid⟩
  by_cases h1 : event.getStreamId = s.datastream_id
  swap
  · rw [handleTTLEvent_rejected s event (Or.inl h1),
      handleTTLEvent_rejected a event (Or.inl (hid ▸ h1))]
    exact keep
  by_cases h2 : event.getMetadataValueCount = 1
  swap
  · rw [handleTTLEvent_rejected s event (Or.inr (Or.inl h2)),
      handleTTLEvent_rejected a event (Or.inr (Or.inl h2))]
    exact keep
  by_cases h3 : event.getTotalEventMetadataSize = 0
  · rw [handleTTLEvent_rejected s event (Or.inr (Or.inr (Or.inl h3))),
      handleTTLEvent_rejected a event (Or.inr (Or.inr (Or.inl h3)))]
    exact keep
  cases hsch : schema with
  | none =>
    subst hsch
    rw [handleTTLEvent_without_schema s event hs h1 h2 h3,
      handleTTLEvent_without_schema a event ha (hid ▸ h1) h2 h3]
    rfl
  | some event_schema =>
    subst hsch
    have hs1 := hs
    have ha1 := ha
    by_cases h4 : event_schema.sample_size = 0
    · rw [handleTTLEvent_zero_sample_size s event event_schema hs1 h4 h1 h2 h3,
        handleTTLEvent_zero_sample_size a event event_schema ha1 h4 (hid ▸ h1) h2 h3]
      rfl
    by_cases h5 : event.getTotalEventMetadataSize % event_schema.sample_size = 0
    swap
    · rw [handleTTLEvent_rejected s event
          (Or.inr (Or.inr (Or.inr ⟨event_schema, hs1, h4, h5⟩))),
        handleTTLEvent_rejected a event
          (Or.inr (Or.inr (Or.inr ⟨event_schema, ha1, h4, h5⟩)))]
      exact keep
    obtain ⟨payload, hval⟩ : ∃ payload, event.metadataValues = [payload] :=
      List.length_eq_one.mp h2
    have hsize := getTotalEventMetadataSize_single event payload hval
    have hwrap := hcount event_schema rfl
    rw [hsize] at h3 h5
    have hquot : payload.length / event_schema.sample_size ≠ 0 := by
      intro h0
      have := Nat.div_add_mod payload.length event_schema.sample_size
      rw [h0, h5] at this
      simp at this
      exact h3 this.symm
    have hnz : toInt32 (Int.ofNat (payload.length / event_schema.sample_size)) ≠ 0 := by
      intro h0
      have hw0 := of_decide_eq_false hwrap
      rw [hsize] at hw0
      exact hw0 ⟨hquot, h0⟩
    rw [handleTTLEvent_accepted s event event_schema payload hs1 h1 hval h3 h5,
      handleTTLEvent_accepted a event event_schema payload ha1 (hid ▸ h1) hval h3 h5]
    simp only [ht, hw, hta, ResultsAgree]
    refine ⟨_, wa, _, rfl, rfl, hwa, rfl, ?_, ?_, ?_, hs, ha, hid⟩
    · simp only [StreamWriter.WriteBytes, RiverWriterThread.enqueue, if_neg hnz, happ,
        List.append_assoc]
    · rw [(enqueue_keeps_control t _).1]; exact hat
    · rw [(enqueue_keeps_control t _).2]; exact hx

theorem handleEvents_singleton (bo : ByteOrder) (s : RiverOutput) (e : HostEvent) :
    handleEvents bo s [e] = handleEvent bo s e := by
  simp only [handleEvents]
  cases handleEvent bo s e <;> rfl

theorem handleEvent_ttl (bo : ByteOrder) (s : RiverOutput) (event : TTLEvent) :
    handleEvent bo s (HostEvent.ttl event) = handleTTLEvent s event := rfl

theorem handleEvents_syncAsync (bo : ByteOrder) (schema : Option StreamSchema)
    (events : List HostEvent) (s a : RiverOutput) (h : SyncAsync schema s a)
    (hcount : ∀ event, HostEvent.ttl event ∈ events → ∀ event_schema,
      schema = some event_schema → countWrapsToZero event_schema event = false) :
    ResultsAgree (SyncAsync schema) (handleEvents bo s events)
      (handleEvents bo a events) := by
  induction events generalizing s a with
  | nil => exact h
  | cons e rest ih =>
    have hrest : ∀ event, HostEvent.ttl event ∈ rest → ∀ event_schema,
        schema = some event_schema → countWrapsToZero event_schema event = false :=
      fun event hm => hcount event (List.mem_cons_of_mem _ hm)
    have hstep : ResultsAgree (SyncAsync schema) (handleEvent bo s e)
        (handleEvent bo a e) := by
      cases e with
      | spike spike => exact handleSpike_syncAsync bo schema s a spike h
      | ttl event =>
        exact handleTTLEvent_syncAsync schema s a event h
          (hcount event (List.mem_cons_self _ _))
    simp only [handleEvents]
    cases h1 : handleEvent bo s e <;> cases h2 : handleEvent bo a e <;>
      rw [h1, h2] at hstep <;> simp only [ResultsAgree] at hstep ⊢
    · exact hstep
    · exact ih _ _ hstep hrest

/-- C7, as amended. Synchronous mode: let `s` be a state with a writer
session and no flush task. For every spike and every TTL event that passes
the four checks, the handler returns with exactly one batch appended to the
sink, the batch that the same call in a state with a flush task passes to
`enqueue`, and no pending queue exists afterwards. Consequently, for every
sequence of events in which no TTL event has a non-zero quotient
`m / sample_size` that the narrowing to `int` turns into 0, the run in `s` and
the run in the state with a new flush task end alike: either both end in the
same fault, or both return, and after the flush task has drained the queue
the sink of the asynchronous run has observed the same sequence of appends as
the sink of the synchronous run. -/
theorem synchronous_matches_asynchronous (bo : ByteOrder) (s : RiverOutput)
    (w : StreamWriter) (p : Int) (events : List HostEvent)
    (hwriter : s.writer_ = some w) (hthread : s.writing_thread_ = none)
    (hcount : ∀ event, HostEvent.ttl event ∈ events → ∀ event_schema,
      s.event_schema_ = some event_schema →
      countWrapsToZero event_schema event = false) :
    (∀ spike, ∃ batch : QueuedEvent,
      handleSpike bo s spike = Except.ok { s with
        writer_ := some (w.WriteBytes batch.rawData batch.numSamples) } ∧
      ∀ t, handleSpike bo { s with writing_thread_ := some t } spike =
        Except.ok { s with writing_thread_ := some (t.enqueue batch) }) ∧
    (∀ event event_schema, s.event_schema_ = some event_schema →
      event.getStreamId = s.datastream_id →
      event.getMetadataValueCount = 1 →
      event.getTotalEventMetadataSize ≠ 0 →
      event.getTotalEventMetadataSize % event_schema.sample_size = 0 →
      ∃ batch : QueuedEvent,
        handleTTLEvent s event = Except.ok { s with
          stream_id_to_stream_names :=
            lookupOrInsert s.stream_id_to_stream_names s.datastream_id
          writer_ := some (w.WriteBytes batch.rawData batch.numSamples) } ∧
        ∀ t, handleTTLEvent { s with writing_thread_ := some t } event =
          Except.ok { s with
            stream_id_to_stream_names :=
              lookupOrInsert s.stream_id_to_stream_names s.datastream_id
            writing_thread_ := some (t.enqueue batch) }) ∧
    ResultsAgree
      (fun s1 a1 => s1.writing_thread_ = none ∧
        ∃ q, a1.pending = some q ∧
          (a1.flush (2 * q.length + 2)).pending = some [] ∧
          (a1.flush (2 * q.length + 2)).sinkLog = s1.sinkLog)
      (handleEvents bo s events)
      (handleEvents bo { s with writing_thread_ := some (RiverWriterThread.new p) }
        events) := by
  refine ⟨?_, ?_, ?_⟩
  · intro spike
    refine ⟨{ rawData := (toRiverSpike spike).bytes bo, numSamples := 1 }, ?_, ?_⟩
    · simp [handleSpike, hthread, hwriter]
    · intro t
      simp [handleSpike]
  · intro event event_schema hschema hid hc hpos hdiv
    obtain ⟨payload, hval⟩ : ∃ payload, event.metadataValues = [payload] :=
      List.length_eq_one.mp hc
    have hsize := getTotalEventMetadataSize_single event payload hval
    rw [hsize] at hpos hdiv
    refine ⟨{ rawData := payload
              numSamples :=
                toInt32 (Int.ofNat (payload.length / event_schema.sample_size)) }, ?_, ?_⟩
    · rw [handleTTLEvent_accepted s event event_schema payload hschema hid hval hpos hdiv,
        hthread, hwriter]
    · intro t
      rw [handleTTLEvent_accepted { s with writing_thread_ := some t } event event_schema
        payload hschema hid hval hpos hdiv]
  · have hsim : SyncAsync s.event_schema_ s
        { s with writing_thread_ := some (RiverWriterThread.new p) } :=
      ⟨w, w, RiverWriterThread.new p, hwriter, hthread, hwriter, rfl,
        by simp [RiverWriterThread.new], rfl, rfl, rfl, rfl, rfl⟩
    have hrun := handleEvents_syncAsync bo s.event_schema_ events s _ hsim
      (fun event hm event_schema he => hcount event hm event_schema he)
    cases h1 : handleEvents bo s events <;>
      cases h2 : handleEvents bo
        { s with writing_thread_ := some (RiverWriterThread.new p) } events <;>
      rw [h1, h2] at hrun <;> simp only [ResultsAgree] at hrun ⊢
    · exact hrun
    · obtain ⟨w1, wa, t, hw1, ht1, hwa, hta, happ, hat, hx, _, _, _⟩ := hrun
      have hdrain := RiverWriterThread.runSteps_from_loopHead t.queued_events_ t wa hat hx rfl
      refine ⟨ht1, t.queued_events_, ?_, ?_, ?_⟩
      · simp [RiverOutput.pending, hta]
      · simp [RiverOutput.pending, RiverOutput.flush, hta, hwa, hdrain.1]
      · simp [RiverOutput.sinkLog, RiverOutput.flush, hta, hwa, hw1, hdrain.2, happ]

/-- C7, witness: a spike and three TTL events handled in a synchronous session
on `schema12` and in the same state with a new flush task of period 7. -/
theorem synchronous_matches_asynchronous_witness :
    ResultsAgree
      (fun s1 a1 => s1.writing_thread_ = none ∧
        ∃ q, a1.pending = some q ∧
          (a1.flush (2 * q.length + 2)).pending = some [] ∧
          (a1.flush (2 * q.length + 2)).sinkLog = s1.sinkLog)
      (handleEvents ByteOrder.little syncState12 events12)
      (handleEvents ByteOrder.little
        { syncState12 with writing_thread_ := some (RiverWriterThread.new 7) } events12) :=
  (synchronous_matches_asynchronous ByteOrder.little syncState12 writer12 7 events12 rfl rfl
    (by
      intro event hm event_schema he
      have hes : event_schema = schema12 := by
        have h0 : syncState12.event_schema_ = some schema12 := rfl
        rw [h0] at he
        exact (Option.some.inj he).symm
      subst hes
      simp only [events12, List.mem_cons, List.mem_singleton, List.not_mem_nil,
        or_false] at hm
      rcases hm with h | h | h | h
      · exact HostEvent.noConfusion h
      · cases h; decide
      · cases h; decide
      · cases h; decide)).2.2

/-- C7, counterexample. A TTL event with `17179869184` bytes of metadata on a
schema with `sample_size = 4` passes the four checks; its record count
`4294967296` becomes the `int` 0. The synchronous session hands it to the sink
as one append with record count 0; in the same state with a flush task
`enqueue` drops it, the queue stays empty and the sink observes no append. -/
theorem sync_async_differ_on_wrapped_count :
    ttlHuge.getStreamId = syncState4.datastream_id ∧
    ttlHuge.getMetadataValueCount = 1 ∧
    ttlHuge.getTotalEventMetadataSize = 17179869184 ∧
    17179869184 % schema4.sample_size = 0 ∧
    (handleEvents ByteOrder.little syncState4 [HostEvent.ttl ttlHuge]).map
        RiverOutput.sinkLog =
      Except.ok (some [{ rawData := List.replicate 17179869184 5, numSamples := 0 }]) ∧
    (handleEvents ByteOrder.little
        { syncState4 with writing_thread_ := some (RiverWriterThread.new 7) }
        [HostEvent.ttl ttlHuge]).map RiverOutput.pending = Except.ok (some []) ∧
    (handleEvents ByteOrder.little
        { syncState4 with writing_thread_ := some (RiverWriterThread.new 7) }
        [HostEvent.ttl ttlHuge]).map (fun a => (a.flush 2).sinkLog) =
      Except.ok (some []) := by
  have hss : schema4.sample_size = 4 := by decide
  have hlen : (List.replicate 17179869184 (5 : Byte)).length = 17179869184 :=
    List.length_replicate _ _
  have hw : toInt32 (Int.ofNat (17179869184 / 4)) = 0 := by
    unfold toInt32
    norm_num
  have hid : ttlHuge.getStreamId = syncState4.datastream_id := by decide
  have hval : ttlHuge.metadataValues = [List.replicate 17179869184 5] := rfl
  have hpos : (List.replicate 17179869184 (5 : Byte)).length ≠ 0 := by rw [hlen]; decide
  have hdiv : (List.replicate 17179869184 (5 : Byte)).length % schema4.sample_size = 0 := by
    rw [hlen, hss]
  refine ⟨hid, rfl, ?_, ?_, ?_, ?_, ?_⟩
  · rw [getTotalEventMetadataSize_single _ _ hval, hlen]
  · rw [hss]
  · rw [handleEvents_singleton, handleEvent_ttl,
      handleTTLEvent_accepted syncState4 ttlHuge schema4 (List.replicate 17179869184 5)
      rfl hid hval hpos hdiv, hlen, hss, hw]
    rfl
  · rw [handleEvents_singleton, handleEvent_ttl, handleTTLEvent_accepted
      { syncState4 with writing_thread_ := some (RiverWriterThread.new 7) } ttlHuge schema4
      (List.replicate 17179869184 5) rfl hid hval hpos hdiv, hlen, hss, hw]
    rfl
  · rw [handleEvents_singleton, handleEvent_ttl, handleTTLEvent_accepted
      { syncState4 with writing_thread_ := some (RiverWriterThread.new 7) } ttlHuge schema4
      (List.replicate 17179869184 5) rfl hid hval hpos hdiv, hlen, hss, hw]
    rfl

/-! ## Stop, schema selection and persistence -/

/-- C11. `stopAcquisition` always succeeds and is idempotent: in every state it
returns `true` and leaves no flush task; a second call right after the
first returns `true` again and leaves the state of the first call as it is;
a writer that was held is still held, stopped, and `totalSamplesWritten`
reports its counter (the counter of the writer before the call when there was
no flush task), also after the second call. -/
theorem stopAcquisition_idempotent (host host1 : Host) (s : RiverOutput) :
    (stopAcquisition host s).1 = true ∧
    (stopAcquisition host s).2.writing_thread_ = none ∧
    stopAcquisition host1 (stopAcquisition host s).2 = (true, (stopAcquisition host s).2) ∧
    (∀ w, s.writer_ = some w →
      ∃ w1, (stopAcquisition host s).2.writer_ = some w1 ∧ w1.stopped = true ∧
        w1 = (match s.writing_thread_ with
          | some t => (t.stopThread host.stopSteps w).2
          | none => w).Stop ∧
        totalSamplesWritten (stopAcquisition host s).2 = w1.total_samples_written ∧
        (s.writing_thread_ = none →
          totalSamplesWritten (stopAcquisition host s).2 = totalSamplesWritten s)) ∧
    totalSamplesWritten (stopAcquisition host1 (stopAcquisition host s).2).2 =
      totalSamplesWritten (stopAcquisition host s).2 := by
  have hidem : stopAcquisition host1 (stopAcquisition host s).2 =
      (true, (stopAcquisition host s).2) := by
    unfold stopAcquisition
    cases hth : s.writing_thread_ <;> cases hwr : s.writer_ <;> cases hed : s.editor <;>
      simp [hth, hwr, hed, StreamWriter.Stop]
  refine ⟨rfl, ?_, hidem, ?_, ?_⟩
  · unfold stopAcquisition
    cases hth : s.writing_thread_ <;> simp [hth]
  · intro w hw
    unfold stopAcquisition totalSamplesWritten
    cases hth : s.writing_thread_ <;>
      simp [hth, hw, StreamWriter.Stop, StreamWriter.total_samples_written]
  · rw [hidem]

/-- C11, witness: an asynchronous session with one batch pending is stopped
twice. -/
theorem stopAcquisition_idempotent_witness :
    (stopAcquisition hostOk asyncState12).1 = true ∧
    (stopAcquisition hostOk asyncState12).2.writing_thread_ = none ∧
    stopAcquisition hostOk (stopAcquisition hostOk asyncState12).2 =
      (true, (stopAcquisition hostOk asyncState12).2) ∧
    ∃ w1, (stopAcquisition hostOk asyncState12).2.writer_ = some w1 ∧ w1.stopped = true ∧
      w1 = (match asyncState12.writing_thread_ with
        | some t => (t.stopThread hostOk.stopSteps writer12).2
        | none => writer12).Stop ∧
      totalSamplesWritten (stopAcquisition hostOk asyncState12).2 =
        w1.total_samples_written ∧
      (asyncState12.writing_thread_ = none →
        totalSamplesWritten (stopAcquisition hostOk asyncState12).2 =
          totalSamplesWritten asyncState12) :=
  ⟨(stopAcquisition_idempotent hostOk hostOk asyncState12).1,
    (stopAcquisition_idempotent hostOk hostOk asyncState12).2.1,
    (stopAcquisition_idempotent hostOk hostOk asyncState12).2.2.1,
    (stopAcquisition_idempotent hostOk hostOk asyncState12).2.2.2.1 writer12 rfl⟩

theorem callEditor_ok (s : RiverOutput) (ed : RiverOutputEditor)
    (heditor : s.editor = some ed) : callEditor s = Except.ok s := by
  simp [callEditor, heditor]

/-- With the editor created, the loop body for a `RiverOutput` element
returns, sets the event schema to the persisted one and leaves editor, writer
and flush task as they are. -/
theorem loadMainNode_ok (parsers : TextParsers) (s : RiverOutput) (ed : RiverOutputEditor)
    (mainNode : XmlElement) (heditor : s.editor = some ed) :
    ∃ s1, loadMainNode parsers s mainNode = Except.ok s1 ∧
      s1.event_schema_ = persistedSchema parsers mainNode ∧
      s1.editor = some ed ∧ s1.writer_ = s.writer_ ∧
      s1.writing_thread_ = s.writing_thread_ := by
  unfold loadMainNode persistedSchema setEventSchema clearEventSchema
  by_cases h1 : mainNode.hasAttribute "max_latency_ms" = true <;>
    by_cases h2 : mainNode.hasAttribute "stream_name" = true <;>
    by_cases h3 : mainNode.hasAttribute "datastream_id" = true <;>
    by_cases h4 : mainNode.hasAttribute "event_schema_json" = true <;>
    cases h5 : parsers.fromJson (mainNode.getStringAttribute "event_schema_json" "") <;>
    simp [h1, h2, h3, h4, h5, callEditor, heditor]

theorem loadChildElements_ok (parsers : TextParsers) (children : List XmlElement)
    (s : RiverOutput) (ed : RiverOutputEditor) (heditor : s.editor = some ed) :
    ∃ s1, loadChildElements parsers s children = Except.ok s1 ∧
      s1.event_schema_ = (match lastMainNode children with
        | some mainNode => persistedSchema parsers mainNode
        | none => s.event_schema_) ∧
      s1.editor = some ed ∧ s1.writer_ = s.writer_ ∧
      s1.writing_thread_ = s.writing_thread_ := by
  induction children generalizing s with
  | nil => exact ⟨s, rfl, rfl, heditor, rfl, rfl⟩
  | cons node rest ih =>
    by_cases htag : node.tagName = "RiverOutput"
    · obtain ⟨s1, h1, hs1, he1, hw1, ht1⟩ := loadMainNode_ok parsers s ed node heditor
      obtain ⟨s2, h2, hs2, he2, hw2, ht2⟩ := ih s1 he1
      refine ⟨s2, ?_, ?_, he2, hw2.trans hw1, ht2.trans ht1⟩
      · simp only [loadChildElements, htag, ne_eq, not_true_eq_false, if_false, h1]
        exact h2
      · rw [hs2]
        simp only [lastMainNode, htag, if_true]
        cases lastMainNode rest <;> simp [hs1]
    · obtain ⟨s2, h2, hs2, he2, hw2, ht2⟩ := ih s heditor
      refine ⟨s2, ?_, ?_, he2, hw2, ht2⟩
      · simp only [loadChildElements, htag, ne_eq, not_false_eq_true, if_true]
        exact h2
      · rw [hs2]
        simp only [lastMainNode, htag, if_false]
        cases lastMainNode rest <;> simp

/-- C12. Schema fallback on load: let the editor be created, let the event
schema before the call be absent or set, and let `mainNode` be the persisted
`RiverOutput` element that the loop of `loadCustomParametersFromXml` applies
last. The call returns without error. If the serialized event schema of
`mainNode` is absent, or present but rejected by the parser, then afterwards
the event schema is absent, `shouldConsumeSpikes()` is true and `getSchema()`
is the built-in spike schema. If it parses to a schema `S`, then afterwards
`getSchema()` is `S` and `shouldConsumeSpikes()` is false. -/
theorem schema_fallback_on_load (parsers : TextParsers) (s : RiverOutput)
    (ed : RiverOutputEditor) (children : List XmlElement) (mainNode : XmlElement)
    (heditor : s.editor = some ed) (hnode : lastMainNode children = some mainNode) :
    ∃ s1, loadCustomParametersFromXml parsers s children = Except.ok s1 ∧
      ((mainNode.hasAttribute "event_schema_json" = false ∨
          parsers.fromJson (mainNode.getStringAttribute "event_schema_json" "") = none) →
        s1.event_schema_ = none ∧ shouldConsumeSpikes s1 = true ∧
        getSchema s1 = spike_schema_) ∧
      (∀ S, mainNode.hasAttribute "event_schema_json" = true →
        parsers.fromJson (mainNode.getStringAttribute "event_schema_json" "") = some S →
        s1.event_schema_ = some S ∧ getSchema s1 = S ∧ shouldConsumeSpikes s1 = false) := by
  obtain ⟨s1, h1, hs1, he1, _, _⟩ := loadChildElements_ok parsers children s ed heditor
  rw [hnode] at hs1
  refine ⟨s1, ?_, ?_, ?_⟩
  · simp only [loadCustomParametersFromXml, h1, callEditor_ok s1 ed he1]
  · intro habsent
    have hnone : s1.event_schema_ = none := by
      rw [hs1]
      unfold persistedSchema
      rcases habsent with h | h
      · simp [h]
      · simp [h]
    simp [shouldConsumeSpikes, getSchema, hnone]
  · intro S hattr hparse
    have hsome : s1.event_schema_ = some S := by
      rw [hs1]
      unfold persistedSchema
      simp [hattr, hparse]
    simp [shouldConsumeSpikes, getSchema, hsome]

/-- C12, witness: the event schema `schema4` is set and the persisted element
carries the text `\x7bmalformed\x7d`, which the parser rejects; the load returns
and leaves the processor in spike-consuming mode. -/
theorem schema_fallback_on_load_witness :
    parsers12.fromJson "\x7bmalformed\x7d" = none ∧
    editedState4.event_schema_ = some schema4 ∧
    ∃ s1, loadCustomParametersFromXml parsers12 editedState4 [nodeMalformed] =
        Except.ok s1 ∧
      s1.event_schema_ = none ∧ shouldConsumeSpikes s1 = true ∧
      getSchema s1 = spike_schema_ :=
  ⟨by decide, rfl,
    (schema_fallback_on_load parsers12 editedState4 { enabled := false } [nodeMalformed]
      nodeMalformed rfl (by decide)).imp
      (fun _ h => ⟨h.1, h.2.1 (Or.inr (by decide))⟩)⟩

/-- A successful `startAcquisition` declares the stream with the schema that
`getSchema` returns at that moment. -/
theorem startAcquisition_declares (host : Host) (s s1 : RiverOutput)
    (hstart : startAcquisition host s = StartResult.returned true s1) :
    ∃ w metadata, s1.writer_ = some w ∧
      w.declared = some (s.stream_name, getSchema s, metadata) ∧ w.appended = [] := by
  cases hcfg : (s.stream_name.isEmpty || s.redis_connection_hostname.isEmpty ||
    decide (s.redis_connection_port ≤ 0)) with
  | true =>
    rw [startAcquisition_unconfigured host s hcfg] at hstart
    simp at hstart
  | false =>
    rw [startAcquisition_configured host s hcfg] at hstart
    by_cases h1 : host.constructorThrows = true
    · rw [if_pos h1] at hstart
      simp at hstart
    · by_cases h2 : (shouldConsumeSpikes s && s.spikeChannels == 0) = true
      · rw [if_neg h1, if_pos h2] at hstart
        simp at hstart
      · by_cases h3 : host.initializeThrows = true
        · rw [if_neg h1, if_neg h2, if_pos h3] at hstart
          simp at hstart
        · rw [if_neg h1, if_neg h2, if_neg h3] at hstart
          simp only [StartResult.returned.injEq, true_and] at hstart
          subst hstart
          exact ⟨_, _, rfl, rfl, rfl⟩

theorem stopAcquisition_keeps_configuration (host : Host) (s : RiverOutput) :
    (stopAcquisition host s).2.stream_name = s.stream_name ∧
    (stopAcquisition host s).2.event_schema_ = s.event_schema_ := by
  unfold stopAcquisition
  cases s.writing_thread_ <;> exact ⟨rfl, rfl⟩

/-- C13, as amended. A schema switch leaves the writer session and the flush
task alone and reaches the event path at once. With the editor created, for
every state and every schema `S`: `setEventSchema(S)` and
`clearEventSchema()` return with `writer_` (and the schema it declared) and
`writing_thread_` unchanged. From the call on the selection made by `process`
is that of the current event schema: after `setEventSchema` spikes are no
longer handed on, after `clearEventSchema` they are. After `setEventSchema(S)`
the size-multiple check and the record count of `handleTTLEvent` use the
`sample_size` of `S`. The schema that the sink has declared changes at the
next successful `startAcquisition` after a `stopAcquisition`, which declares
`S`, respectively the spike schema. -/
theorem schema_switch_during_session (bo : ByteOrder) (s : RiverOutput)
    (ed : RiverOutputEditor) (heditor : s.editor = some ed) (S : StreamSchema) :
    (∃ s1, setEventSchema s S = Except.ok s1 ∧
      s1.writer_ = s.writer_ ∧ s1.writing_thread_ = s.writing_thread_ ∧
      s1.event_schema_ = some S ∧ shouldConsumeSpikes s1 = false ∧
      (∀ events, process bo s1 events =
        match s.writer_ with
        | some _ => checkForEvents bo false s1 events
        | none => Except.ok s1) ∧
      (∀ event payload, event.getStreamId = s.datastream_id →
        event.metadataValues = [payload] → payload.length ≠ 0 →
        (S.sample_size ≠ 0 → payload.length % S.sample_size ≠ 0 →
          handleTTLEvent s1 event = Except.ok { s1 with
            stream_id_to_stream_names :=
              lookupOrInsert s.stream_id_to_stream_names s.datastream_id }) ∧
        (payload.length % S.sample_size = 0 →
          handleTTLEvent s1 event =
            match s.writing_thread_ with
            | some t =>
              Except.ok { s1 with
                stream_id_to_stream_names :=
                  lookupOrInsert s.stream_id_to_stream_names s.datastream_id
                writing_thread_ := some (t.enqueue
                  { rawData := payload
                    numSamples := toInt32 (Int.ofNat (payload.length / S.sample_size)) }) }
            | none =>
              match s.writer_ with
              | none => Except.error Fault.nullDereference
              | some w =>
                Except.ok { s1 with
                  stream_id_to_stream_names :=
                    lookupOrInsert s.stream_id_to_stream_names s.datastream_id
                  writer_ := some (w.WriteBytes payload
                    (toInt32 (Int.ofNat (payload.length / S.sample_size)))) })) ∧
      (∀ host host1 s2,
        startAcquisition host1 (stopAcquisition host s1).2 = StartResult.returned true s2 →
        ∃ w metadata, s2.writer_ = some w ∧
          w.declared = some (s.stream_name, S, metadata))) ∧
    (∃ s1, clearEventSchema s = Except.ok s1 ∧
      s1.writer_ = s.writer_ ∧ s1.writing_thread_ = s.writing_thread_ ∧
      s1.event_schema_ = none ∧ shouldConsumeSpikes s1 = true ∧
      (∀ events, process bo s1 events =
        match s.writer_ with
        | some _ => checkForEvents bo true s1 events
        | none => Except.ok s1) ∧
      (∀ host host1 s2,
        startAcquisition host1 (stopAcquisition host s1).2 = StartResult.returned true s2 →
        ∃ w metadata, s2.writer_ = some w ∧
          w.declared = some (s.stream_name, spike_schema_, metadata))) := by
  refine ⟨⟨{ s with event_schema_ := some S }, ?_, rfl, rfl, rfl, rfl, ?_, ?_, ?_⟩,
    ⟨{ s with event_schema_ := none }, ?_, rfl, rfl, rfl, rfl, ?_, ?_⟩⟩
  · exact callEditor_ok _ ed heditor
  · intro events
    simp only [process, shouldConsumeSpikes]
    cases s.writer_ <;> rfl
  · intro event payload hid hval hpos
    refine ⟨?_, ?_⟩
    · intro hss hrem
      have hsize := getTotalEventMetadataSize_single event payload hval
      exact handleTTLEvent_rejected { s with event_schema_ := some S } event
        (Or.inr (Or.inr (Or.inr ⟨S, rfl, hss, by rw [hsize]; exact hrem⟩)))
    · intro hdiv
      exact handleTTLEvent_accepted { s with event_schema_ := some S } event S payload rfl
        hid hval hpos hdiv
  · intro host host1 s2 hstart
    obtain ⟨w, metadata, hw, hdecl, _⟩ := startAcquisition_declares host1 _ s2 hstart
    obtain ⟨hname, hschema⟩ :=
      stopAcquisition_keeps_configuration host { s with event_schema_ := some S }
    refine ⟨w, metadata, hw, ?_⟩
    rw [hdecl, hname]
    simp [getSchema, hschema]
  · exact callEditor_ok _ ed heditor
  · intro events
    simp only [process, shouldConsumeSpikes]
    cases s.writer_ <;> rfl
  · intro host host1 s2 hstart
    obtain ⟨w, metadata, hw, hdecl, _⟩ := startAcquisition_declares host1 _ s2 hstart
    obtain ⟨hname, hschema⟩ :=
      stopAcquisition_keeps_configuration host { s with event_schema_ := none }
    refine ⟨w, metadata, hw, ?_⟩
    rw [hdecl, hname]
    simp [getSchema, hschema]

/-- C13, witness: the session declared with `schema12`; after
`setEventSchema(schema4)` the writer is the same and spikes are not handed on,
after `clearEventSchema()` spikes are handed on. -/
theorem schema_switch_during_session_witness :
    (∃ s1, setEventSchema session12 schema4 = Except.ok s1 ∧
      s1.writer_ = session12.writer_ ∧ s1.writing_thread_ = session12.writing_thread_ ∧
      s1.event_schema_ = some schema4 ∧ shouldConsumeSpikes s1 = false) ∧
    (∃ s1, clearEventSchema session12 = Except.ok s1 ∧
      s1.writer_ = session12.writer_ ∧ s1.writing_thread_ = session12.writing_thread_ ∧
      s1.event_schema_ = none ∧ shouldConsumeSpikes s1 = true) :=
  ⟨(schema_switch_during_session ByteOrder.little session12 { enabled := true } rfl
      schema4).1.imp (fun _ h => ⟨h.1, h.2.1, h.2.2.1, h.2.2.2.1, h.2.2.2.2.1⟩),
    (schema_switch_during_session ByteOrder.little session12 { enabled := true } rfl
      schema4).2.imp (fun _ h => ⟨h.1, h.2.1, h.2.2.1, h.2.2.2.1, h.2.2.2.2.1⟩)⟩

/-- C13, counterexample. A synchronous session is started with the event
schema `schema12` (`sample_size = 12`). While it is active, a TTL event with 4
bytes of metadata is rejected and a spike is not consumed. After
`setEventSchema(schema4)` the same TTL event is accepted as one record of 4
bytes, and after `clearEventSchema()` `process` hands the spike to the sink,
although the writer session still is the one declared with `schema12`. -/
theorem schema_switch_reaches_active_session :
    startAcquisition hostOk configuredEvents12 = StartResult.returned true session12 ∧
    (handleTTLEvent session12 (ttlOfSize 4)).map RiverOutput.sinkLog =
      Except.ok (some []) ∧
    (process ByteOrder.little session12 [HostEvent.spike spike0]).map RiverOutput.sinkLog =
      Except.ok (some []) ∧
    (∃ s1, setEventSchema session12 schema4 = Except.ok s1 ∧
      s1.writer_ = session12.writer_ ∧
      (handleTTLEvent s1 (ttlOfSize 4)).map RiverOutput.sinkLog =
        Except.ok (some [{ rawData := List.replicate 4 5, numSamples := 1 }])) ∧
    (∃ s2, clearEventSchema session12 = Except.ok s2 ∧
      s2.writer_ = session12.writer_ ∧
      (process ByteOrder.little s2 [HostEvent.spike spike0]).map RiverOutput.sinkLog =
        Except.ok (some [{ rawData := (toRiverSpike spike0).bytes ByteOrder.little,
                           numSamples := 1 }])) :=
  ⟨rfl, rfl, rfl, ⟨_, rfl, rfl, rfl⟩, ⟨_, rfl, rfl, rfl⟩⟩

/-! ## Cancellation -/

/-- C14, counterexample. The flush task reads the cancellation signal at the
head of the outer loop, before any drain: with the flag raised before its
first action it returns from `run` at once, and with the flag raised while it
sleeps it returns at the head of the next iteration; in both runs the batch
that was enqueued before the flag was raised is still in the queue and the
sink has observed no append. -/
theorem flush_task_exits_at_loop_head :
    (∃ sys, (WriterSystem.init writer12 7).exec interleavingCancelFirst = some sys ∧
      sys.thread.at_ = RunPoint.exited ∧ sys.thread.queued_events_ = [batchA] ∧
      sys.writer.appended = [] ∧ sys.removed = []) ∧
    (∃ sys, (WriterSystem.init writer12 7).exec interleavingCancelAsleep = some sys ∧
      sys.thread.at_ = RunPoint.exited ∧ sys.thread.queued_events_ = [batchA] ∧
      sys.writer.appended = [] ∧ sys.removed = []) :=
  ⟨⟨_, rfl, rfl, rfl, rfl, rfl⟩, ⟨_, rfl, rfl, rfl, rfl, rfl⟩⟩

/-- C14, as amended. In every iteration of the flush cycle the cancellation
signal is read twice, at the head of the outer loop (before draining) and
after the drain, and never inside the drain loop: at the two tests a raised
flag ends `run` and a lowered flag lets it go on (to the drain, respectively
to the sleep that leads back to the loop head); the locked dequeue, the
append and the sleep do not depend on the flag; `run` returns only at one of
the two tests with the flag raised. The test after the drain is reached only
from a dequeue step that observed the queue empty, and in every state in
which the drain observes the empty queue, reached by any interleaving from
the start of the flush task on a sink without appends, every batch accepted
so far has been appended to the sink. -/
theorem cancellation_checks :
    (∀ (t : RiverWriterThread) (w : StreamWriter),
      (t.at_ = RunPoint.loopHead →
        t.runStep w = some ({ t with at_ :=
          if t.shouldExit then RunPoint.exited else RunPoint.drain }, w)) ∧
      (t.at_ = RunPoint.checkExit →
        t.runStep w = some ({ t with at_ :=
          if t.shouldExit then RunPoint.exited else RunPoint.sleep }, w)) ∧
      (t.at_ = RunPoint.sleep →
        t.runStep w = some ({ t with at_ := RunPoint.loopHead }, w))) ∧
    (∀ (t : RiverWriterThread) (w : StreamWriter) (flag : Bool),
      t.at_ ≠ RunPoint.loopHead → t.at_ ≠ RunPoint.checkExit →
      RiverWriterThread.runStep { t with shouldExit := flag } w =
        (t.runStep w).map (fun r => ({ r.1 with shouldExit := flag }, r.2))) ∧
    (∀ (t t1 : RiverWriterThread) (w w1 : StreamWriter),
      t.runStep w = some (t1, w1) → t1.at_ = RunPoint.exited →
      (t.at_ = RunPoint.loopHead ∨ t.at_ = RunPoint.checkExit) ∧ t.shouldExit = true) ∧
    (∀ (t t1 : RiverWriterThread) (w w1 : StreamWriter),
      t.runStep w = some (t1, w1) → t1.at_ = RunPoint.checkExit →
      t.at_ = RunPoint.drain ∧ t.queued_events_ = []) ∧
    (∀ (w0 : StreamWriter) (p : Int) (acts : List Action) (sys : WriterSystem),
      w0.appended = [] → (WriterSystem.init w0 p).exec acts = some sys →
      sys.thread.at_ = RunPoint.drain → sys.thread.queued_events_ = [] →
      sys.writer.appended = sys.accepted ∧
      sys.accepted = (enqueuedIn acts).filter (fun event => event.numSamples ≠ 0)) := by
  refine ⟨?_, ?_, ?_, ?_, ?_⟩
  · intro t w
    refine ⟨?_, ?_, ?_⟩
    · intro hat
      cases hx : t.shouldExit <;> simp [RiverWriterThread.runStep, hat, hx]
    · intro hat
      cases hx : t.shouldExit <;> simp [RiverWriterThread.runStep, hat, hx]
    · intro hat
      simp [RiverWriterThread.runStep, hat]
  · intro t w flag h1 h2
    unfold RiverWriterThread.runStep
    cases hat : t.at_ with
    | loopHead => exact absurd hat h1
    | checkExit => exact absurd hat h2
    | drain => cases hq : t.queued_events_ <;> simp [hat, hq]
    | write e => simp [hat]
    | sleep => simp [hat]
    | exited => simp [hat]
  · intro t t1 w w1 hstep hexit
    unfold RiverWriterThread.runStep at hstep
    cases hat : t.at_ with
    | loopHead =>
      rw [hat] at hstep
      cases hx : t.shouldExit
      · simp [hx] at hstep
        rw [← hstep.1] at hexit
        simp at hexit
      · exact ⟨Or.inl rfl, rfl⟩
    | checkExit =>
      rw [hat] at hstep
      cases hx : t.shouldExit
      · simp [hx] at hstep
        rw [← hstep.1] at hexit
        simp at hexit
      · exact ⟨Or.inr rfl, rfl⟩
    | drain =>
      rw [hat] at hstep
      cases hq : t.queued_events_ <;> simp [hq] at hstep <;>
        (rw [← hstep.1] at hexit; simp at hexit)
    | write e =>
      rw [hat] at hstep
      simp at hstep
      rw [← hstep.1] at hexit
      simp at hexit
    | sleep =>
      rw [hat] at hstep
      simp at hstep
      rw [← hstep.1] at hexit
      simp at hexit
    | exited =>
      rw [hat] at hstep
      simp at hstep
  · intro t t1 w w1 hstep hcheck
    unfold RiverWriterThread.runStep at hstep
    cases hat : t.at_ with
    | loopHead =>
      rw [hat] at hstep
      cases hx : t.shouldExit <;> simp [hx] at hstep <;>
        (rw [← hstep.1] at hcheck; simp at hcheck)
    | checkExit =>
      rw [hat] at hstep
      cases hx : t.shouldExit <;> simp [hx] at hstep <;>
        (rw [← hstep.1] at hcheck; simp at hcheck)
    | drain =>
      rw [hat] at hstep
      cases hq : t.queued_events_ with
      | nil => exact ⟨rfl, rfl⟩
      | cons e rest =>
        simp [hq] at hstep
        rw [← hstep.1] at hcheck
        simp at hcheck
    | write e =>
      rw [hat] at hstep
      simp at hstep
      rw [← hstep.1] at hcheck
      simp at hcheck
    | sleep =>
      rw [hat] at hstep
      simp at hstep
      rw [← hstep.1] at hcheck
      simp at hcheck
    | exited =>
      rw [hat] at hstep
      simp at hstep
  · intro w0 p acts sys hw hexec hat hq
    have hc := WriterSystem.exec_consistent w0.appended acts _ sys
      (WriterSystem.init_consistent w0 p) hexec
    have hcalls := WriterSystem.exec_enqueuedIn acts _ sys hexec
    obtain ⟨h1, h2, _⟩ := hc
    have hfl : sys.inFlight = [] := by simp [WriterSystem.inFlight, hat]
    rw [hw, List.nil_append, hfl, List.append_nil] at h2
    rw [hq, List.append_nil] at h1
    refine ⟨by rw [h1, h2], ?_⟩
    simp only [WriterSystem.accepted, hcalls, WriterSystem.init, List.nil_append]

/-- C14, witness: one batch is enqueued and appended; the drain is about to
observe the empty queue and everything accepted has been appended. -/
theorem cancellation_checks_witness :
    (WriterSystem.init writer12 7).exec interleavingDrained = some systemDrained ∧
    systemDrained.thread.at_ = RunPoint.drain ∧
    systemDrained.thread.queued_events_ = [] ∧
    systemDrained.writer.appended = [batchA] ∧
    (systemDrained.writer.appended = systemDrained.accepted ∧
      systemDrained.accepted =
        (enqueuedIn interleavingDrained).filter (fun event => event.numSamples ≠ 0)) :=
  ⟨rfl, rfl, rfl, rfl,
    cancellation_checks.2.2.2.2 writer12 7 interleavingDrained systemDrained rfl rfl rfl rfl⟩

/-! ## Totality of the TTL path -/

/-- C15, the failing inputs. In the synchronous session that
`startAcquisition` opens in spike-consuming mode, `process` hands a TTL event
of the configured upstream source with one metadata value of 4 bytes to
`handleTTLEvent`, which passes its first three checks and dereferences the
empty `event_schema_`. In a session whose event schema has no fields, the
same event makes the size-multiple check take a remainder modulo 0. -/
theorem handleTTLEvent_faults :
    startAcquisition hostOk configured0 = StartResult.returned true spikeSession0 ∧
    shouldConsumeSpikes spikeSession0 = true ∧
    (ttlOfSize 4).getStreamId = spikeSession0.datastream_id ∧
    (ttlOfSize 4).getMetadataValueCount = 1 ∧
    (ttlOfSize 4).getTotalEventMetadataSize = 4 ∧
    handleTTLEvent spikeSession0 (ttlOfSize 4) = Except.error Fault.nullDereference ∧
    process ByteOrder.little spikeSession0 [HostEvent.ttl (ttlOfSize 4)] =
      Except.error Fault.nullDereference ∧
    schemaEmpty.sample_size = 0 ∧
    handleTTLEvent sessionEmptySchema (ttlOfSize 4) = Except.error Fault.divisionByZero ∧
    process ByteOrder.little sessionEmptySchema [HostEvent.ttl (ttlOfSize 4)] =
      Except.error Fault.divisionByZero :=
  ⟨rfl, rfl, rfl, rfl, rfl, rfl, rfl, rfl, rfl, rfl⟩

end RiverIO
